import Mathlib

/-!
Verification development for the LedgerLens receipt-extraction pipeline
(`functions/main.py`).  The Python source is shallowly embedded: pure
helpers become Lean functions, the Firestore document store becomes an
explicit association-list state, machine floats are modelled as exact
rationals, the Gemini provider is an oracle of outcomes, and injected
query faults model the exceptions the source catches.  All definitions
are executable so that every theorem can be checked on concrete inputs.
-/

set_option maxRecDepth 100000
set_option linter.unusedVariables false

namespace LedgerLens

/- ────────────────────────────────────────────────────────
   Byte and hex utilities
   ──────────────────────────────────────────────────────── -/

/-- UTF-8 encoding of a string as a list of byte values (`str.encode()`). -/
def utf8Bytes (s : String) : List Nat :=
  s.toList.flatMap fun c =>
    let n := c.toNat
    if n < 128 then [n]
    else if n < 2048 then
      [192 ||| (n >>> 6), 128 ||| (n &&& 63)]
    else if n < 65536 then
      [224 ||| (n >>> 12), 128 ||| ((n >>> 6) &&& 63), 128 ||| (n &&& 63)]
    else
      [240 ||| (n >>> 18), 128 ||| ((n >>> 12) &&& 63),
       128 ||| ((n >>> 6) &&& 63), 128 ||| (n &&& 63)]

/-- One hex digit (lowercase). -/
def hexDigit (n : Nat) : Char :=
  if n < 10 then Char.ofNat (48 + n) else Char.ofNat (87 + n % 16)

/-- Lowercase hex rendering of one byte. -/
def byteToHex (b : Nat) : List Char :=
  [hexDigit ((b >>> 4) &&& 15), hexDigit (b &&& 15)]

/-- Lowercase hex digest string of a byte list (`hexdigest()`). -/
def bytesToHex (bs : List Nat) : String :=
  String.mk (bs.flatMap byteToHex)

/-- Chunk splitting with explicit fuel (structural recursion so that the
kernel can evaluate digests by `decide`). -/
def chunksOfAux (fuel n : Nat) (l : List α) : List (List α) :=
  match fuel, l with
  | 0, _ => []
  | _, [] => []
  | fuel + 1, l => l.take n :: chunksOfAux fuel n (l.drop n)

/-- Split a list into chunks of `n` elements (last chunk may be short). -/
def chunksOf (n : Nat) (l : List α) : List (List α) :=
  chunksOfAux l.length n l

/-- 32-bit truncation. -/
def m32 (n : Nat) : Nat := n % 4294967296

/-- 32-bit left rotation. -/
def rotl32 (x n : Nat) : Nat := m32 ((x <<< n) ||| (x >>> (32 - n)))

/-- 32-bit right rotation. -/
def rotr32 (x n : Nat) : Nat := m32 ((x >>> n) ||| (x <<< (32 - n)))

/-- Four little-endian bytes of a 32-bit word. -/
def wordToLEBytes (w : Nat) : List Nat :=
  [w &&& 255, (w >>> 8) &&& 255, (w >>> 16) &&& 255, (w >>> 24) &&& 255]

/-- Four big-endian bytes of a 32-bit word. -/
def wordToBEBytes (w : Nat) : List Nat :=
  [(w >>> 24) &&& 255, (w >>> 16) &&& 255, (w >>> 8) &&& 255, w &&& 255]

/-- Little-endian 32-bit word from a 4-byte chunk. -/
def leWord (bs : List Nat) : Nat :=
  match bs with
  | [b0, b1, b2, b3] => b0 + (b1 <<< 8) + (b2 <<< 16) + (b3 <<< 24)
  | _ => 0

/-- Big-endian 32-bit word from a 4-byte chunk. -/
def beWord (bs : List Nat) : Nat :=
  match bs with
  | [b0, b1, b2, b3] => (b0 <<< 24) + (b1 <<< 16) + (b2 <<< 8) + b3
  | _ => 0

/- ────────────────────────────────────────────────────────
   MD5 (RFC 1321), used by `compute_receipt_hash`
   ──────────────────────────────────────────────────────── -/

def md5S : List Nat :=
  [7, 12, 17, 22, 7, 12, 17, 22, 7, 12, 17, 22, 7, 12, 17, 22,
   5,  9, 14, 20, 5,  9, 14, 20, 5,  9, 14, 20, 5,  9, 14, 20,
   4, 11, 16, 23, 4, 11, 16, 23, 4, 11, 16, 23, 4, 11, 16, 23,
   6, 10, 15, 21, 6, 10, 15, 21, 6, 10, 15, 21, 6, 10, 15, 21]

def md5K : List Nat :=
  [3614090360, 3905402710, 606105819, 3250441966,
   4118548399, 1200080426, 2821735955, 4249261313,
   1770035416, 2336552879, 4294925233, 2304563134,
   1804603682, 4254626195, 2792965006, 1236535329,
   4129170786, 3225465664, 643717713, 3921069994,
   3593408605, 38016083, 3634488961, 3889429448,
   568446438, 3275163606, 4107603335, 1163531501,
   2850285829, 4243563512, 1735328473, 2368359562,
   4294588738, 2272392833, 1839030562, 4259657740,
   2763975236, 1272893353, 4139469664, 3200236656,
   681279174, 3936430074, 3572445317, 76029189,
   3654602809, 3873151461, 530742520, 3299628645,
   4096336452, 1126891415, 2878612391, 4237533241,
   1700485571, 2399980690, 4293915773, 2240044497,
   1873313359, 4264355552, 2734768916, 1309151649,
   4149444226, 3174756917, 718787259, 3951481745]

/-- Merkle–Damgård padding shared by MD5 (little-endian length). -/
def md5Pad (msg : List Nat) : List Nat :=
  let bitLen := msg.length * 8
  let padZeros := (119 - msg.length % 64) % 64
  msg ++ [128] ++ List.replicate padZeros 0 ++
    (List.range 8).map (fun i => (bitLen >>> (8 * i)) &&& 255)

/-- One MD5 round step applied to the running state. -/
def md5Step (m : List Nat) (st : Nat × Nat × Nat × Nat) (i : Nat) :
    Nat × Nat × Nat × Nat :=
  let (a, b, c, d) := st
  let (f, g) :=
    if i < 16 then ((b &&& c) ||| ((4294967295 ^^^ b) &&& d), i)
    else if i < 32 then ((d &&& b) ||| ((4294967295 ^^^ d) &&& c), (5 * i + 1) % 16)
    else if i < 48 then (b ^^^ c ^^^ d, (3 * i + 5) % 16)
    else (c ^^^ (b ||| (4294967295 ^^^ d)), (7 * i) % 16)
  let f' := m32 (f + a + md5K.getD i 0 + m.getD g 0)
  (d, m32 (b + rotl32 f' (md5S.getD i 0)), b, c)

/-- Process one 64-byte chunk. -/
def md5Chunk (st : Nat × Nat × Nat × Nat) (chunk : List Nat) :
    Nat × Nat × Nat × Nat :=
  let m := (chunksOf 4 chunk).map leWord
  let (a0, b0, c0, d0) := st
  let (a, b, c, d) := (List.range 64).foldl (md5Step m) st
  (m32 (a0 + a), m32 (b0 + b), m32 (c0 + c), m32 (d0 + d))

/-- MD5 digest of a byte list, as 16 bytes. -/
def md5Bytes (msg : List Nat) : List Nat :=
  let (a, b, c, d) :=
    (chunksOf 64 (md5Pad msg)).foldl md5Chunk
      (1732584193, 4023233417, 2562383102, 271733878)
  wordToLEBytes a ++ wordToLEBytes b ++ wordToLEBytes c ++ wordToLEBytes d

/-- `hashlib.md5(s.encode()).hexdigest()`. -/
def md5Hex (s : String) : String := bytesToHex (md5Bytes (utf8Bytes s))

example : md5Hex "" = "d41d8cd98f00b204e9800998ecf8427e" := by decide
example : md5Hex "abc" = "900150983cd24fb0d6963f7d28e17f72" := by decide

/- ────────────────────────────────────────────────────────
   SHA-256 (FIPS 180-4), used for the image content hash
   ──────────────────────────────────────────────────────── -/

def sha256K : List Nat :=
  [1116352408, 1899447441, 3049323471, 3921009573,
   961987163, 1508970993, 2453635748, 2870763221,
   3624381080, 310598401, 607225278, 1426881987,
   1925078388, 2162078206, 2614888103, 3248222580,
   3835390401, 4022224774, 264347078, 604807628,
   770255983, 1249150122, 1555081692, 1996064986,
   2554220882, 2821834349, 2952996808, 3210313671,
   3336571891, 3584528711, 113926993, 338241895,
   666307205, 773529912, 1294757372, 1396182291,
   1695183700, 1986661051, 2177026350, 2456956037,
   2730485921, 2820302411, 3259730800, 3345764771,
   3516065817, 3600352804, 4094571909, 275423344,
   430227734, 506948616, 659060556, 883997877,
   958139571, 1322822218, 1537002063, 1747873779,
   1955562222, 2024104815, 2227730452, 2361852424,
   2428436474, 2756734187, 3204031479, 3329325298]

/-- SHA-256 padding (big-endian length). -/
def sha256Pad (msg : List Nat) : List Nat :=
  let bitLen := msg.length * 8
  let padZeros := (119 - msg.length % 64) % 64
  msg ++ [128] ++ List.replicate padZeros 0 ++
    (List.range 8).map (fun i => (bitLen >>> (8 * (7 - i))) &&& 255)

/-- Message schedule extension: words 16..63. -/
def sha256Extend (w : List Nat) (i : Nat) : List Nat :=
  let w15 := w.getD (i - 15) 0
  let w2 := w.getD (i - 2) 0
  let s0 := (rotr32 w15 7) ^^^ (rotr32 w15 18) ^^^ (w15 >>> 3)
  let s1 := (rotr32 w2 17) ^^^ (rotr32 w2 19) ^^^ (w2 >>> 10)
  w ++ [m32 (w.getD (i - 16) 0 + s0 + w.getD (i - 7) 0 + s1)]

/-- One SHA-256 compression step. -/
def sha256Step (w : List Nat)
    (st : Nat × Nat × Nat × Nat × Nat × Nat × Nat × Nat) (i : Nat) :
    Nat × Nat × Nat × Nat × Nat × Nat × Nat × Nat :=
  let (a, b, c, d, e, f, g, h) := st
  let s1 := (rotr32 e 6) ^^^ (rotr32 e 11) ^^^ (rotr32 e 25)
  let ch := (e &&& f) ^^^ ((4294967295 ^^^ e) &&& g)
  let t1 := m32 (h + s1 + ch + sha256K.getD i 0 + w.getD i 0)
  let s0 := (rotr32 a 2) ^^^ (rotr32 a 13) ^^^ (rotr32 a 22)
  let mj := (a &&& b) ^^^ (a &&& c) ^^^ (b &&& c)
  let t2 := m32 (s0 + mj)
  (m32 (t1 + t2), a, b, c, m32 (d + t1), e, f, g)

/-- Process one 64-byte chunk. -/
def sha256Chunk (st : Nat × Nat × Nat × Nat × Nat × Nat × Nat × Nat)
    (chunk : List Nat) : Nat × Nat × Nat × Nat × Nat × Nat × Nat × Nat :=
  let w0 := (chunksOf 4 chunk).map beWord
  let w := (List.range 48).foldl (fun acc i => sha256Extend acc (i + 16)) w0
  let (a0, b0, c0, d0, e0, f0, g0, h0) := st
  let (a, b, c, d, e, f, g, h) := (List.range 64).foldl (sha256Step w) st
  (m32 (a0 + a), m32 (b0 + b), m32 (c0 + c), m32 (d0 + d),
   m32 (e0 + e), m32 (f0 + f), m32 (g0 + g), m32 (h0 + h))

/-- SHA-256 digest of a byte list, as 32 bytes. -/
def sha256Bytes (msg : List Nat) : List Nat :=
  let (a, b, c, d, e, f, g, h) :=
    (chunksOf 64 (sha256Pad msg)).foldl sha256Chunk
      (1779033703, 3144134277, 1013904242, 2773480762,
       1359893119, 2600822924, 528734635, 1541459225)
  wordToBEBytes a ++ wordToBEBytes b ++ wordToBEBytes c ++ wordToBEBytes d ++
  wordToBEBytes e ++ wordToBEBytes f ++ wordToBEBytes g ++ wordToBEBytes h

/-- `hashlib.sha256(bytes).hexdigest()`. -/
def sha256Hex (msg : List Nat) : String := bytesToHex (sha256Bytes msg)

example : sha256Hex [] =
    "e3b0c44298fc1c149afbf4c8996fb92427ae41e4649b934ca495991b7852b855" := by decide
example : sha256Hex (utf8Bytes "abc") =
    "ba7816bf8f01cfea414140de5dae2223b00361a396177a9cb410ff61f20015ad" := by decide

/- ────────────────────────────────────────────────────────
   Python string semantics (ASCII fragment)
   ──────────────────────────────────────────────────────── -/

/-- ASCII lowercasing, modelling `str.lower()` on the ASCII fragment. -/
def asciiLowerChar (c : Char) : Char :=
  if 'A' ≤ c ∧ c ≤ 'Z' then Char.ofNat (c.toNat + 32) else c

/-- `str.lower()` (ASCII model). -/
def pyLower (s : String) : String := String.mk (s.toList.map asciiLowerChar)

/-- Python whitespace characters recognised by `str.strip()` / `\s`. -/
def isPyWs (c : Char) : Bool :=
  c = ' ' || c = '\t' || c = '\n' || c = '\r' || c.toNat = 11 || c.toNat = 12

/-- Strip leading and trailing whitespace from a char list. -/
def stripWsList (cs : List Char) : List Char :=
  ((cs.dropWhile isPyWs).reverse.dropWhile isPyWs).reverse

/-- `str.strip()`. -/
def pyStrip (s : String) : String := String.mk (stripWsList s.toList)

/-- `needle` is a prefix of `hay`. -/
def isPrefixChars : List Char → List Char → Bool
  | [], _ => true
  | _ :: _, [] => false
  | a :: as, b :: bs => a = b && isPrefixChars as bs

/-- `needle` occurs contiguously inside `hay`. -/
def isSubChars (needle : List Char) : List Char → Bool
  | [] => needle.isEmpty
  | c :: rest => isPrefixChars needle (c :: rest) || isSubChars needle rest

/-- Substring containment on strings (`kw in error_str`). -/
def strContains (hay needle : String) : Bool :=
  isSubChars needle.toList hay.toList

/-- `s.startswith(p)` (char-list based so it evaluates in the kernel). -/
def strStarts (s p : String) : Bool := isPrefixChars p.toList s.toList

/-- `s.endswith(e)`. -/
def strEnds (s e : String) : Bool :=
  isPrefixChars e.toList.reverse s.toList.reverse

/-- `str.split(sep)` for a single-character separator. -/
def splitOnChar (sep : Char) : List Char → List (List Char)
  | [] => [[]]
  | c :: rest =>
    let r := splitOnChar sep rest
    if c = sep then [] :: r
    else
      match r with
      | h :: t => (c :: h) :: t
      | [] => [[c]]

/-- `sep.join(xs)`. -/
def joinWith (sep : String) : List String → String
  | [] => ""
  | [x] => x
  | x :: rest => x ++ sep ++ joinWith sep rest

/- ────────────────────────────────────────────────────────
   Exact rationals as the model of Python floats.
   Every float the pipeline manipulates is a short decimal, where
   binary-float and exact-decimal arithmetic coincide.  A dedicated
   normalized-fraction type is used so that all operations reduce
   under `decide` and structural equality is semantic equality.
   ──────────────────────────────────────────────────────── -/

/-- A rational kept in lowest terms with positive denominator. -/
structure Frac where
  n : Int
  d : Nat
deriving Repr, DecidableEq

/-- Build a normalized fraction from numerator and denominator. -/
def Frac.norm (n : Int) (d : Nat) : Frac :=
  if d = 0 then ⟨0, 1⟩
  else
    let g := Nat.gcd n.natAbs d
    ⟨n / (g : Int), d / g⟩

def Frac.ofInt (n : Int) : Frac := ⟨n, 1⟩

def Frac.zero : Frac := ⟨0, 1⟩

def Frac.add (a b : Frac) : Frac :=
  Frac.norm (a.n * (b.d : Int) + b.n * (a.d : Int)) (a.d * b.d)

def Frac.mul (a b : Frac) : Frac := Frac.norm (a.n * b.n) (a.d * b.d)

def Frac.neg (a : Frac) : Frac := ⟨-a.n, a.d⟩

def Frac.sub (a b : Frac) : Frac := a.add b.neg

/-- Multiplicative inverse; `0⁻¹ = 0` by convention (never exercised:
the pipeline only divides by nonzero powers of ten). -/
def Frac.inv (a : Frac) : Frac :=
  if a.n = 0 then ⟨0, 1⟩
  else if 0 < a.n then ⟨(a.d : Int), a.n.natAbs⟩
  else ⟨-(a.d : Int), a.n.natAbs⟩

def Frac.div (a b : Frac) : Frac := a.mul b.inv

def Frac.blt (a b : Frac) : Bool := a.n * (b.d : Int) < b.n * (a.d : Int)

/-- Floor of a fraction (denominator is positive by construction). -/
def Frac.floorI (a : Frac) : Int := Int.fdiv a.n (a.d : Int)

/-- `10^k` as a fraction denominator helper. -/
def Frac.tenPow (k : Nat) : Frac := ⟨(10 : Int) ^ k, 1⟩

/-- Numeric value of a digit list. -/
def digitsVal (cs : List Char) : Nat :=
  cs.foldl (fun a c => a * 10 + (c.toNat - 48)) 0

/-- Decimal digit characters of a natural number. -/
def natDigits (n : Nat) : String := Nat.repr n

/-- Least `k ≤ 17` with `q * 10^k` integral, if any. -/
def decExponent (q : Frac) : Option Nat :=
  (List.range 18).find? (fun k => (10 : Nat) ^ k % q.d = 0)

/-- Python `str()` of a float, for decimally-representable rationals
(`str(42.5) = "42.5"`, `str(1250.0) = "1250.0"`). -/
def qToPyStr (q : Frac) : String :=
  let sign := if q.n < 0 then "-" else ""
  match decExponent q with
  | some 0 => sign ++ natDigits q.n.natAbs ++ ".0"
  | some k =>
      let scaled := q.n.natAbs * ((10 : Nat) ^ k / q.d)
      let ip := scaled / 10 ^ k
      let fracDigits := natDigits (scaled % 10 ^ k)
      let pad := String.mk (List.replicate (k - fracDigits.length) '0')
      sign ++ natDigits ip ++ "." ++ pad ++ fracDigits
  | none => sign ++ natDigits q.n.natAbs ++ "/" ++ natDigits q.d

/-- Truncation toward zero (`int(float)`). -/
def ratTrunc (q : Frac) : Int :=
  if 0 ≤ q.n then q.floorI else -(q.neg.floorI)

/-- Round half to even, Python's `round()` on exact values. -/
def roundHalfEven (q : Frac) : Int :=
  let f := q.floorI
  let r := q.sub (Frac.ofInt f)
  let half : Frac := ⟨1, 2⟩
  if r.blt half then f
  else if half.blt r then f + 1
  else if f % 2 = 0 then f else f + 1

/-- `round(x, 2)` on the exact-rational float model. -/
def round2 (q : Frac) : Frac :=
  (Frac.ofInt (roundHalfEven (q.mul (Frac.ofInt 100)))).div (Frac.ofInt 100)

/-- `float()` parsing restricted to sign/digit/dot strings (the only
strings `_to_float` ever passes: everything else has been filtered out).
Returns `none` where Python raises `ValueError`. -/
def parseDecimal (s : String) : Option Frac :=
  let cs := s.toList
  let (neg, body) :=
    match cs with
    | '-' :: rest => (true, rest)
    | _ => (false, cs)
  if body.any (fun c => c = '-') then none
  else
    let ip := body.takeWhile (fun c => c ≠ '.')
    let rest := body.dropWhile (fun c => c ≠ '.')
    if ¬ ip.all Char.isDigit then none
    else
      let mk (v : Frac) : Option Frac := some (if neg then v.neg else v)
      match rest with
      | [] => if ip = [] then none else mk (Frac.ofInt (digitsVal ip))
      | _ :: frac =>
          if frac.any (fun c => c = '.') then none
          else if ¬ frac.all Char.isDigit then none
          else if ip = [] ∧ frac = [] then none
          else mk ((Frac.ofInt (digitsVal ip)).add
            ((Frac.ofInt (digitsVal frac)).div (Frac.tenPow frac.length)))

example : parseDecimal "1250.00" = some (Frac.ofInt 1250) := by decide
example : parseDecimal "-.5" = some ⟨-1, 2⟩ := by decide
example : parseDecimal "5-3" = none := by decide
example : parseDecimal "" = none := by decide
example : qToPyStr ⟨85, 2⟩ = "42.5" := by decide
example : qToPyStr (Frac.ofInt 1250) = "1250.0" := by decide

/- ────────────────────────────────────────────────────────
   Firestore/JSON values and documents
   ──────────────────────────────────────────────────────── -/

/-- Dynamic values: Python/JSON data and Firestore document fields. -/
inductive Value where
  | str (s : String)
  | num (q : Frac)
  | int (n : Int)
  | bool (b : Bool)
  | null
  | list (elems : List Value)
  | dict (fields : List (String × Value))
  | timestamp
deriving Repr

/-- A Firestore document / Python dict: insertion-ordered fields.  The
`Value.timestamp` constructor above is the `firestore.SERVER_TIMESTAMP`
sentinel; it never flows into Python string/number coercions. -/
abbrev Doc := List (String × Value)

/-- `d.get(k)` (first binding; documents keep keys unique). -/
def dictGet (d : Doc) (k : String) : Option Value :=
  (d.find? (fun kv => kv.1 = k)).map (fun kv => kv.2)

/-- `d[k] = v`: replace in place if present, else append (Python dict
insertion-order semantics, also used for document writes). -/
def dictSet (d : Doc) (k : String) (v : Value) : Doc :=
  match d with
  | [] => [(k, v)]
  | (k', v') :: rest =>
      if k' = k then (k, v) :: rest else (k', v') :: dictSet rest k v

/-- Depth fuel for recursive map merging; no document in this
development nests anywhere near this deep. -/
def mergeFuel : Nat := 100

/-- Firestore `set(..., merge=True)` value merging: maps merge
recursively, everything else is replaced.  `mergeStep` installs one
update field into an accumulated document. -/
def mergeValF : Nat → Value → Value → Value
  | 0, _, n => n
  | fuel + 1, old, new =>
    match old, new with
    | .dict o, .dict n =>
        .dict (n.foldl (fun acc kv =>
          match dictGet acc kv.1 with
          | some ov => dictSet acc kv.1 (mergeValF fuel ov kv.2)
          | none => dictSet acc kv.1 kv.2) o)
    | _, n => n

/-- One field of a merge write applied to the accumulated document. -/
def mergeStep (fuel : Nat) (acc : Doc) (kv : String × Value) : Doc :=
  match dictGet acc kv.1 with
  | some ov => dictSet acc kv.1 (mergeValF fuel ov kv.2)
  | none => dictSet acc kv.1 kv.2

/-- Merge an update document into an existing document. -/
def mergeDoc (old upd : Doc) : Doc :=
  upd.foldl (mergeStep mergeFuel) old

/-- Python truthiness. -/
def valueTruthy : Value → Bool
  | .str s => s ≠ ""
  | .num q => q.n ≠ 0
  | .int n => n ≠ 0
  | .bool b => b
  | .null => false
  | .list xs => ¬ xs.isEmpty
  | .dict d => ¬ d.isEmpty
  | .timestamp => true

/-- Python `str()` of a value.  Containers are rendered opaquely: no
claim ever applies `str()` to a list or dict, and modelling their exact
Python rendering is not needed for any theorem below. -/
def pyStr : Value → String
  | .str s => s
  | .num q => qToPyStr q
  | .int n => if n < 0 then "-" ++ natDigits n.natAbs else natDigits n.natAbs
  | .bool b => if b then "True" else "False"
  | .null => "None"
  | .list _ => "<list>"
  | .dict _ => "<dict>"
  | .timestamp => "<sentinel>"

/- ────────────────────────────────────────────────────────
   `_to_float` and `compute_receipt_hash` (main.py 170–200)
   ──────────────────────────────────────────────────────── -/

/-- `re.sub(r"[^\d.\-]", "", s)`: keep digits, dots, and every minus
sign (the regex class does not anchor the minus to the front). -/
def cleanNumStr (s : String) : String :=
  String.mk (s.toList.filter (fun c => c.isDigit || c = '.' || c = '-'))

/-- `_to_float(val)` from main.py: sanitize the string form, parse,
round to 2 places; `0.0` on empty or unparsable remainders. -/
def toFloatVal (v : Value) : Frac :=
  let cleaned := cleanNumStr (pyStr v)
  if cleaned = "" then Frac.zero
  else
    match parseDecimal cleaned with
    | some q => round2 q
    | none => Frac.zero

/-- `_to_float` applied to a string argument. -/
def toFloat (s : String) : Frac := toFloatVal (.str s)

/-- The field normalization `norm` inside `compute_receipt_hash`:
`str(s).lower().strip().replace(" ", "")`. -/
def normStr (s : String) : String :=
  String.mk ((stripWsList ((pyLower s).toList)).filter (fun c => c ≠ ' '))

/-- `norm(data.get(k, ""))`. -/
def hashField (data : Doc) (k : String) : String :=
  normStr (pyStr ((dictGet data k).getD (.str "")))

/-- The canonical pre-hash string of `compute_receipt_hash`. -/
def receiptHashRaw (data : Doc) : String :=
  hashField data "vendor" ++ "|" ++ hashField data "total" ++ "|" ++
    hashField data "date" ++ "|" ++ hashField data "invoice_number"

/-- `compute_receipt_hash(data)` from main.py: MD5 of the normalized
vendor|total|date|invoice_number string. -/
def computeReceiptHash (data : Doc) : String := md5Hex (receiptHashRaw data)

example : toFloat "$1,250.00" = Frac.ofInt 1250 := by decide
example : toFloat "" = Frac.zero := by decide
example : toFloat "abc" = Frac.zero := by decide
example : normStr "  Acme  CORP " = "acmecorp" := by decide

/- ────────────────────────────────────────────────────────
   JSON parsing (`json.loads`)
   ──────────────────────────────────────────────────────── -/

/-- JSON insignificant whitespace. -/
def isJsonWs (c : Char) : Bool := c = ' ' || c = '\t' || c = '\n' || c = '\r'

def skipWs (cs : List Char) : List Char := cs.dropWhile isJsonWs

def hexVal (c : Char) : Option Nat :=
  if '0' ≤ c ∧ c ≤ '9' then some (c.toNat - 48)
  else if 'a' ≤ c ∧ c ≤ 'f' then some (c.toNat - 87)
  else if 'A' ≤ c ∧ c ≤ 'F' then some (c.toNat - 70)
  else none

/-- JSON string body parser (after the opening quote), with fuel. -/
def parseJStr (fuel : Nat) (cs : List Char) (acc : List Char) :
    Option (String × List Char) :=
  match fuel, cs with
  | 0, _ => none
  | _, [] => none
  | fuel + 1, c :: rest =>
    if c = '"' then some (String.mk acc.reverse, rest)
    else if c = '\\' then
      match rest with
      | [] => none
      | e :: rest' =>
        if e = '"' then parseJStr fuel rest' ('"' :: acc)
        else if e = '\\' then parseJStr fuel rest' ('\\' :: acc)
        else if e = '/' then parseJStr fuel rest' ('/' :: acc)
        else if e = 'b' then parseJStr fuel rest' (Char.ofNat 8 :: acc)
        else if e = 'f' then parseJStr fuel rest' (Char.ofNat 12 :: acc)
        else if e = 'n' then parseJStr fuel rest' ('\n' :: acc)
        else if e = 'r' then parseJStr fuel rest' ('\r' :: acc)
        else if e = 't' then parseJStr fuel rest' ('\t' :: acc)
        else if e = 'u' then
          match rest' with
          | h1 :: h2 :: h3 :: h4 :: rest'' =>
            match hexVal h1, hexVal h2, hexVal h3, hexVal h4 with
            | some a, some b, some c', some d =>
                parseJStr fuel rest''
                  (Char.ofNat (((a * 16 + b) * 16 + c') * 16 + d) :: acc)
            | _, _, _, _ => none
          | _ => none
        else none
    else if c.toNat < 32 then none
    else parseJStr fuel rest (c :: acc)

/-- JSON number parser (`-?int frac? exp?`); integers without fraction
or exponent load as Python `int`, everything else as `float`. -/
def parseJNumber (cs : List Char) : Option (Value × List Char) :=
  let (neg, b1) :=
    match cs with
    | '-' :: r => (true, r)
    | _ => (false, cs)
  let ip := b1.takeWhile Char.isDigit
  let r1 := b1.drop ip.length
  if ip = [] then none
  else if 1 < ip.length ∧ ip.headD '0' = '0' then none
  else
    let fracRes : Option (List Char × List Char) :=
      match r1 with
      | '.' :: r =>
          let f := r.takeWhile Char.isDigit
          if f = [] then none else some (f, r.drop f.length)
      | _ => some ([], r1)
    match fracRes with
    | none => none
    | some (frac, r2) =>
      let expRes : Option (Int × List Char) :=
        match r2 with
        | 'e' :: r => some (0, r)
        | 'E' :: r => some (0, r)
        | _ => none
      match expRes with
      | none =>
          let sgn : Int := if neg then -1 else 1
          if frac = [] then some (.int (sgn * digitsVal ip), r2)
          else
            let m : Int := sgn * digitsVal (ip ++ frac)
            some (.num (Frac.norm m (10 ^ frac.length)), r2)
      | some (_, r3) =>
          let (eneg, r4) :=
            match r3 with
            | '-' :: r => (true, r)
            | '+' :: r => (false, r)
            | _ => (false, r3)
          let ed := r4.takeWhile Char.isDigit
          if ed = [] then none
          else
            let e : Int := (if eneg then -1 else 1) * digitsVal ed
            let t : Int := e - frac.length
            let m : Int := (if neg then -1 else 1) * digitsVal (ip ++ frac)
            let v : Frac :=
              if 0 ≤ t then Frac.ofInt (m * (10 : Int) ^ t.natAbs)
              else Frac.norm m (10 ^ t.natAbs)
            some (.num v, r4.drop ed.length)

/-- Parser working state: a plain value, the members of an object being
read, or the elements of an array being read. -/
inductive JMode where
  | val
  | members (acc : Doc)
  | elems (acc : List Value)

/-- Recursive JSON parser, structural on fuel so the kernel can run it. -/
def parseJ : Nat → JMode → List Char → Option (Value × List Char)
  | 0, _, _ => none
  | fuel + 1, .val, cs =>
    let cs := skipWs cs
    match cs with
    | [] => none
    | '{' :: rest =>
        (match skipWs rest with
         | '}' :: r2 => some (.dict [], r2)
         | r2 => parseJ fuel (.members []) r2)
    | '[' :: rest =>
        (match skipWs rest with
         | ']' :: r2 => some (.list [], r2)
         | r2 => parseJ fuel (.elems []) r2)
    | '"' :: rest =>
        (parseJStr (rest.length + 1) rest []).map (fun p => (.str p.1, p.2))
    | 't' :: rest =>
        if isPrefixChars ['r', 'u', 'e'] rest then some (.bool true, rest.drop 3)
        else none
    | 'f' :: rest =>
        if isPrefixChars ['a', 'l', 's', 'e'] rest then some (.bool false, rest.drop 4)
        else none
    | 'n' :: rest =>
        if isPrefixChars ['u', 'l', 'l'] rest then some (.null, rest.drop 3)
        else none
    | _ => parseJNumber cs
  | fuel + 1, .members acc, cs =>
    (match skipWs cs with
     | '"' :: rest =>
       match parseJStr (rest.length + 1) rest [] with
       | none => none
       | some (key, r1) =>
         match skipWs r1 with
         | ':' :: r2 =>
           match parseJ fuel .val r2 with
           | none => none
           | some (v, r3) =>
             let acc' := dictSet acc key v
             match skipWs r3 with
             | ',' :: r4 => parseJ fuel (.members acc') r4
             | '}' :: r4 => some (.dict acc', r4)
             | _ => none
         | _ => none
     | _ => none)
  | fuel + 1, .elems acc, cs =>
    match parseJ fuel .val cs with
    | none => none
    | some (v, r1) =>
      let acc' := acc ++ [v]
      match skipWs r1 with
      | ',' :: r2 => parseJ fuel (.elems acc') r2
      | ']' :: r2 => some (.list acc', r2)
      | _ => none

/-- `json.loads` (raises = `none`).  NaN/Infinity literals are not
modelled; the pipeline never feeds them. -/
def jsonLoads (s : String) : Option Value :=
  let cs := s.toList
  match parseJ (4 * cs.length + 8) .val cs with
  | some (v, rest) => if (skipWs rest).isEmpty then some v else none
  | none => none

example : jsonLoads "\x7b\"a\": 1, \"b\": \"x\"\x7d" =
    some (.dict [("a", .int 1), ("b", .str "x")]) := rfl
example : jsonLoads "[1.5, -2e1, true, null]" =
    some (.list [.num ⟨3, 2⟩, .num (Frac.ofInt (-20)), .bool true, .null]) := rfl
example : jsonLoads "hello" = none := rfl

/- ────────────────────────────────────────────────────────
   Extraction Client (main.py 79–167)
   ──────────────────────────────────────────────────────── -/

def defaultCategories : List String :=
  ["Food & Beverage", "Office Supplies", "Travel", "Fuel",
   "Utilities", "Medical", "Equipment", "Services", "Miscellaneous"]

/-- Text of `EXTRACTION_PROMPT_TEMPLATE` before the category list. -/
def promptHeader : String :=
  "You are a professional auditor and receipt data extraction expert.\nAnalyze the provided receipt/invoice image and extract the following structured fields.\n\nReturn ONLY a valid JSON object with these exact keys:\n\x7b\n  \"date\": \"YYYY-MM-DD (format as ISO 8601 if possible)\",\n  \"vendor\": \"Official business name\",\n  \"total\": \"Numeric total amount including tax\",\n  \"tax\": \"Numeric tax amount (0.0 if not found)\",\n  \"category\": \"One of: "

/-- Text of `EXTRACTION_PROMPT_TEMPLATE` after the category list. -/
def promptFooter : String :=
  "\",\n  \"invoice_number\": \"Invoice/Receipt reference number\",\n  \"confidence_score\": 0-100 (integer)\n\x7d\n\nRules:\n1. If the image is not a receipt or invoice, return category \"Invalid\" and empty strings/0.\n2. Ensure \x27total\x27 and \x27tax\x27 are pure numbers (e.g. 1250.00, not \"1,250.00\").\n3. Use your best judgment for \x27category\x27 based on the vendor and items.\n4. You MUST categorize into one of the categories listed above. Pick the closest match.\n5. Output ONLY the raw JSON string. No preamble, no markdown formatting.\n"

/-- The category names joined into the prompt: the caller-supplied list
when truthy, else the defaults (`cats = categories if categories else
DEFAULT_CATEGORIES`). -/
def promptCategories (categories : Option Value) : List String :=
  match categories with
  | some v =>
      if valueTruthy v then
        match v with
        | .list xs => xs.map pyStr
        | _ => []
      else defaultCategories
  | none => defaultCategories

/-- `build_extraction_prompt` from main.py. -/
def buildExtractionPrompt (categories : Option Value) : String :=
  promptHeader ++ joinWith ", " (promptCategories categories) ++ promptFooter

/-- Transient-error keywords of main.py line 157. -/
def retryKeywords : List String :=
  ["429", "resource_exhausted", "rate", "quota", "overloaded", "unavailable", "503", "500"]

/-- `is_retryable`: any keyword occurs in the lowercased error text. -/
def isRetryableErr (msg : String) : Bool :=
  retryKeywords.any (fun kw => strContains (pyLower msg) kw)

/-- The normalized extraction schema (the dict literal of lines 142–151,
without `model_used`). -/
structure ExtractedFields where
  date : String
  vendor : String
  total : Frac
  tax : Frac
  category : String
  invoice_number : String
  confidence_score : Int
deriving Repr, DecidableEq

/-- `int()` coercion; `none` models the raised exception. -/
def pyIntVal : Value → Option Int
  | .int n => some n
  | .num q => some (ratTrunc q)
  | .bool b => some (if b then 1 else 0)
  | .str s =>
      let t := stripWsList s.toList
      let (sgn, body) :=
        match t with
        | '+' :: r => ((1 : Int), r)
        | '-' :: r => ((-1 : Int), r)
        | r => ((1 : Int), r)
      if ¬ body.isEmpty ∧ body.all Char.isDigit then some (sgn * digitsVal body)
      else none
  | _ => none

/-- Python type name of a value (for modelled exception text). -/
def pyTypeName : Value → String
  | .str _ => "str"
  | .num _ => "float"
  | .int _ => "int"
  | .bool _ => "bool"
  | .null => "NoneType"
  | .list _ => "list"
  | .dict _ => "dict"
  | .timestamp => "Sentinel"

/-- Modelled `json.JSONDecodeError` text.  The real message embeds the
failure position; the fixed text used here matches the common
position-zero case, and no theorem depends on the exact wording. -/
def jsonDecodeErrMsg : String := "Expecting value: line 1 column 1 (char 0)"

/-- Modelled `int()` exception text. -/
def pyIntErrMsg : Value → String
  | .str s => "invalid literal for int() with base 10: \x27" ++ s ++ "\x27"
  | v => "int() argument must be a string, a bytes-like object or a real number, not \x27" ++ pyTypeName v ++ "\x27"

/-- Modelled `AttributeError` text for `data.get` on a non-dict. -/
def nonDictErrMsg (v : Value) : String :=
  "\x27" ++ pyTypeName v ++ "\x27 object has no attribute \x27get\x27"

/-- `re.sub(r"^```(?:json)?\s*", "", ...)` then `re.sub(r"\s*```$", "",
...)`, applied only when the stripped text starts with a code fence
(main.py 127–129). -/
def stripCodeFence (raw : String) : String :=
  if strStarts raw "```" then
    let afterTicks := raw.toList.drop 3
    let afterJson :=
      if isPrefixChars ['j', 's', 'o', 'n'] afterTicks then afterTicks.drop 4
      else afterTicks
    let step1 := afterJson.dropWhile isPyWs
    let step2 :=
      if isPrefixChars ['`', '`', '`'] step1.reverse then
        ((step1.reverse.drop 3).dropWhile isPyWs).reverse
      else step1
    String.mk step2
  else raw

/-- `re.search(r"\{.*\}", raw, re.DOTALL)`: the span from the first
opening brace to the last closing brace, when the latter comes after
the former; otherwise the text is left unchanged (main.py 132–134). -/
def extractJsonSpan (raw : String) : String :=
  let cs := raw.toList
  match cs.findIdx? (fun c => c = '{'), cs.reverse.findIdx? (fun c => c = '}') with
  | some i, some jr =>
      let j := cs.length - 1 - jr
      if i < j then String.mk ((cs.drop i).take (j - i + 1)) else raw
  | _, _ => raw

/-- `re.sub(r",\s*\}", "}", raw)`: every comma followed by whitespace
and a closing brace collapses to the brace (main.py 137). -/
def fixTrailingCommasAux : Nat → List Char → List Char
  | 0, cs => cs
  | _, [] => []
  | fuel + 1, c :: rest =>
    if c = ',' then
      match rest.dropWhile isPyWs with
      | '}' :: tail => '}' :: fixTrailingCommasAux fuel tail
      | _ => c :: fixTrailingCommasAux fuel rest
    else c :: fixTrailingCommasAux fuel rest

def fixTrailingCommas (raw : String) : String :=
  String.mk (fixTrailingCommasAux raw.toList.length raw.toList)

/-- The response sanitization and schema normalization of one successful
`generate_content` call (main.py 124–151).  `categories` is in scope in
the source (via `prompt`) but never consulted here — that observation is
claim C9. -/
def sanitizeResponse (respText : String) : String :=
  fixTrailingCommas (extractJsonSpan (stripCodeFence (pyStrip respText)))

def processResponse (categories : Option Value) (respText : String) :
    Except String ExtractedFields :=
  match jsonLoads (sanitizeResponse respText) with
  | none => .error jsonDecodeErrMsg
  | some (.dict data) =>
      let get (k : String) (dflt : Value) : Value := (dictGet data k).getD dflt
      (match pyIntVal (get "confidence_score" (.int 0)) with
       | none => .error (pyIntErrMsg (get "confidence_score" (.int 0)))
       | some conf =>
          .ok { date := pyStr (get "date" (.str "")),
                vendor := pyStr (get "vendor" (.str "")),
                total := toFloatVal (get "total" (.int 0)),
                tax := toFloatVal (get "tax" (.int 0)),
                category := pyStr (get "category" (.str "Miscellaneous")),
                invoice_number := pyStr (get "invoice_number" (.str "")),
                confidence_score := conf })
  | some v => .error (nonDictErrMsg v)

/-- One provider interaction: the response text, or a raised error. -/
inductive Outcome where
  | ok (raw : String)
  | err (msg : String)

/-- Result of the `generate_content` call at global call index `i`,
including the in-`try` post-processing (any failure is caught by the
same `except`). -/
def callResult (categories : Option Value) (env : Nat → Outcome) (i : Nat) :
    Except String ExtractedFields :=
  match env i with
  | .ok raw => processResponse categories raw
  | .err m => .error m

/-- Outcome of the attempt loop for a single model. -/
structure ModelRun where
  success : Option ExtractedFields
  lastErr : String
  calls : Nat
  sleeps : List Frac

/-- `(2 ** attempt) + random.uniform(0, 1)`; the jitter oracle is
indexed by the call the sleep precedes. -/
def backoffDelay (attempt : Nat) (jitter : Nat → Frac) (callIdx : Nat) : Frac :=
  (Frac.ofInt ((2 : Int) ^ attempt)).add (jitter callIdx)

/-- The `for attempt in range(3)` loop of main.py 103–164 for one model:
retry (after a backoff sleep) only on retryable errors and only while
`attempt < 2`; any other error abandons the model at once. -/
def tryModel (categories : Option Value) (env : Nat → Outcome)
    (jitter : Nat → Frac) (start : Nat) : ModelRun :=
  match callResult categories env start with
  | .ok r => ⟨some r, "", 1, []⟩
  | .error m0 =>
    if isRetryableErr m0 then
      let s1 := backoffDelay 1 jitter (start + 1)
      match callResult categories env (start + 1) with
      | .ok r => ⟨some r, m0, 2, [s1]⟩
      | .error m1 =>
        if isRetryableErr m1 then
          let s2 := backoffDelay 2 jitter (start + 2)
          match callResult categories env (start + 2) with
          | .ok r => ⟨some r, m1, 3, [s1, s2]⟩
          | .error m2 => ⟨none, m2, 3, [s1, s2]⟩
        else ⟨none, m1, 2, [s1]⟩
    else ⟨none, m0, 1, []⟩

/-- The normalized result plus the model that produced it. -/
structure Extracted extends ExtractedFields where
  model_used : String
deriving Repr, DecidableEq

def modelsToTry : List String := ["gemini-flash-latest", "gemini-flash-lite-latest"]

/-- Observable outcome of one `extract_receipt_data` execution: its
result, the number of provider calls made, and the sleeps performed. -/
structure ExtractRun where
  result : Except String Extracted
  calls : Nat
  sleeps : List Frac

/-- The `for model_id in models_to_try` loop (main.py 101–167). -/
def extractLoop (categories : Option Value) (env : Nat → Outcome)
    (jitter : Nat → Frac) :
    List String → Nat → List Frac → Option String → ExtractRun
  | [], calls, sleeps, lastE =>
      ⟨.error ("All Gemini models failed: " ++ lastE.getD "None"), calls, sleeps⟩
  | m :: rest, calls, sleeps, lastE =>
      let r := tryModel categories env jitter calls
      match r.success with
      | some f =>
          ⟨.ok { toExtractedFields := f, model_used := m },
           calls + r.calls, sleeps ++ r.sleeps⟩
      | none =>
          extractLoop categories env jitter rest (calls + r.calls)
            (sleeps ++ r.sleeps) (some r.lastErr)

/-- `extract_receipt_data(image_bytes, categories)` with the provider
modelled as an oracle of outcomes. -/
def extractReceiptData (categories : Option Value) (env : Nat → Outcome)
    (jitter : Nat → Frac) : ExtractRun :=
  extractLoop categories env jitter modelsToTry 0 [] none

/- ────────────────────────────────────────────────────────
   The document store (Firestore model)
   ──────────────────────────────────────────────────────── -/

/-- The shared document store: the `batches` collection and all
`batches/{b}/receipts/{r}` documents, in creation order.  Unordered
`limit(n)` queries are resolved in list order — the model's
deterministic stand-in for Firestore's unspecified default ordering. -/
structure Store where
  batches : List (String × Doc)
  receipts : List ((String × String) × Doc)

def getBatch (st : Store) (b : String) : Option Doc :=
  (st.batches.find? (fun kv => kv.1 = b)).map (fun kv => kv.2)

def getReceipt (st : Store) (b r : String) : Option Doc :=
  (st.receipts.find? (fun kv => kv.1 = (b, r))).map (fun kv => kv.2)

/-- Merge-write a document into a keyed list (creating it if absent —
Firestore `set(..., merge=True)` semantics). -/
def upsertDocs (l : List ((String × String) × Doc)) (k : String × String)
    (upd : Doc) : List ((String × String) × Doc) :=
  match l with
  | [] => [(k, mergeDoc [] upd)]
  | (k', d) :: rest =>
      if k' = k then (k, mergeDoc d upd) :: rest
      else (k', d) :: upsertDocs rest k upd

/-- `receipt_ref.set(update, merge=True)`. -/
def setReceiptMerge (st : Store) (b r : String) (upd : Doc) : Store :=
  { st with receipts := upsertDocs st.receipts (b, r) upd }

/-- `v is True` (only the boolean `True` passes). -/
def isBoolTrue : Option Value → Bool
  | some (.bool true) => true
  | _ => false

/-- `v == "s"` for an optional dynamic value against a string. -/
def isStrVal : Option Value → String → Bool
  | some (.str t), s => t = s
  | _, _ => false

/-- `firestore.Increment(1)` applied to the current field value:
integers and doubles advance by one, anything else (including a missing
field) is overwritten with 1. -/
def incrementedCount : Option Value → Value
  | some (.int n) => .int (n + 1)
  | some (.num q) => .num (q.add (Frac.ofInt 1))
  | _ => .int 1

/-- Merge-write `{"receiptCount": Increment(1)}` into the batches
collection: the increment resolves against the current field value,
other fields are untouched, and a missing document is created. -/
def upsertBatchInc : List (String × Doc) → String → List (String × Doc)
  | [], b => [(b, [("receiptCount", .int 1)])]
  | (k, d) :: rest, b =>
      if k = b then
        (k, dictSet d "receiptCount" (incrementedCount (dictGet d "receiptCount"))) :: rest
      else (k, d) :: upsertBatchInc rest b

/-- `db.collection("batches").document(b).set({"receiptCount":
Increment(1)}, merge=True)`. -/
def incrementReceiptCount (st : Store) (b : String) : Store :=
  { st with batches := upsertBatchInc st.batches b }

/-- The best-effort `status: "error"` write of the pipeline exception
handlers (main.py 348–352). -/
def errorWrite (st : Store) (b r msg : String) : Store :=
  setReceiptMerge st b r
    [("status", .str "error"), ("error_message", .str msg),
     ("processedAt", .timestamp)]

/-- The global `collection_group("receipts")` equality query on
`image_hash_sha256`, `limit(1)`: first match in store order. -/
def findByImageHash (st : Store) (h : String) :
    Option ((String × String) × Doc) :=
  st.receipts.find? (fun kv => isStrVal (dictGet kv.2 "image_hash_sha256") h)

/-- The intra-batch `receipt_hash` equality query, `limit(2)`, followed
by the first-match-with-different-id loop (main.py 333–339). -/
def findBatchDuplicate (st : Store) (batchId rhash selfId : String) :
    Option String :=
  let ms := (st.receipts.filter (fun kv =>
    kv.1.1 = batchId && isStrVal (dictGet kv.2 "receipt_hash") rhash)).take 2
  (ms.find? (fun kv => kv.1.2 ≠ selfId)).map (fun kv => kv.1.2)

/- ────────────────────────────────────────────────────────
   Finalizer and pipeline (main.py 261–385)
   ──────────────────────────────────────────────────────── -/

/-- The update document `_finalize_extraction` merge-writes
(main.py 363–374), including the conditional `duplicate_of` field. -/
def finalizeUpdate (data : Doc) (imgHash receiptHash : String)
    (isDuplicate : Bool) (duplicateOf : Option String) : Doc :=
  let base : Doc :=
    [("extracted", .bool true),
     ("extractedData", .dict data),
     ("receipt_hash",
       if receiptHash ≠ "" then .str receiptHash
       else (dictGet data "receipt_hash").getD (.str "")),
     ("image_hash_sha256", .str imgHash),
     ("processedAt", .timestamp),
     ("status", .str "extracted"),
     ("flag_duplicate", .bool isDuplicate)]
  match duplicateOf with
  | some d => if d ≠ "" then base ++ [("duplicate_of", .str d)] else base
  | none => base

/-- `_finalize_extraction` (main.py 355–385): merge the result fields
plus status `extracted` into the receipt document, then increment the
batch counter iff this receipt had not previously been counted. -/
def finalizeExtraction (st : Store) (batchId receiptId : String)
    (data : Doc) (imgHash : String) (receiptHash : String)
    (isDuplicate : Bool) (duplicateOf : Option String) : Store :=
  let snap := getReceipt st batchId receiptId
  let wasExtracted :=
    match snap with
    | some d => isBoolTrue (dictGet d "extracted")
    | none => false
  let st1 := setReceiptMerge st batchId receiptId
    (finalizeUpdate data imgHash receiptHash isDuplicate duplicateOf)
  if wasExtracted then st1 else incrementReceiptCount st1 batchId

/-- Injected failures of the three store queries the source guards (or
fails to guard) with `try`/`except`; each carries its exception text. -/
structure Faults where
  idemQueryFail : Option String
  batchCheckFail : Option String
  dedupQueryFail : Option String

def noFaults : Faults := ⟨none, none, none⟩

/-- The result document dict of `extract_receipt_data` (the dict
literal of main.py 142–151), in insertion order. -/
def extractedToDoc (e : Extracted) : Doc :=
  [("date", .str e.date), ("vendor", .str e.vendor), ("total", .num e.total),
   ("tax", .num e.tax), ("category", .str e.category),
   ("invoice_number", .str e.invoice_number),
   ("confidence_score", .int e.confidence_score),
   ("model_used", .str e.model_used)]

/-- The optional custom category list read from the batch document
(main.py 278–284). -/
def batchCategories (st : Store) (batchId : String) : Option Value :=
  (getBatch st batchId).bind (fun bd => dictGet bd "expenseCategories")

/-- The fresh-extraction tail of `process_receipt_extraction`
(main.py 325–344): Gemini call, fingerprint, guarded intra-batch dedup
query, finalize; an extraction failure reaches the outer handler. -/
def freshExtractionPath (st : Store) (batchId receiptId imageHash : String)
    (env : Nat → Outcome) (jitter : Nat → Frac) (faults : Faults) :
    Store × Nat :=
  let run := extractReceiptData (batchCategories st batchId) env jitter
  match run.result with
  | .error m => (errorWrite st batchId receiptId m, run.calls)
  | .ok ex =>
    let exDoc := extractedToDoc ex
    let rhash := computeReceiptHash exDoc
    let (isDup, dupOf) :=
      match faults.dedupQueryFail with
      | some _ => (false, (none : Option String))
      | none =>
        match findBatchDuplicate st batchId rhash receiptId with
        | some d => (true, some d)
        | none => (false, none)
    let exDoc2 := dictSet exDoc "flag_duplicate" (.bool isDup)
    (finalizeExtraction st batchId receiptId exDoc2 imageHash rhash isDup dupOf,
     run.calls)

/-- `process_receipt_extraction` (main.py 261–352).  Returns the
post-state and the number of provider calls made.  The random stagger
sleep does not affect the store and is not tracked.  An exception in
the unguarded global image-hash query (`faults.idemQueryFail`)
propagates to the outer handler; exceptions in the two guarded blocks
degrade as the source prescribes. -/
def processReceiptExtraction (st : Store) (batchId receiptId : String)
    (imageBytes : List Nat) (env : Nat → Outcome) (jitter : Nat → Frac)
    (faults : Faults) : Store × Nat :=
  let imageHash := sha256Hex imageBytes
  match faults.idemQueryFail with
  | some m => (errorWrite st batchId receiptId m, 0)
  | none =>
    match findByImageHash st imageHash with
    | some (key, doc) =>
      if isStrVal (dictGet doc "status") "extracted" then
        match dictGet doc "extractedData" with
        | some (.dict ed) =>
          let reused0 := dictSet ed "source" (.str "cache_hit")
          let (isDup, dupOf, reused) :=
            match faults.batchCheckFail with
            | some _ => (false, (none : Option String), reused0)
            | none =>
              if key.1 = batchId then
                (true, some key.2, dictSet reused0 "flag_duplicate" (.bool true))
              else (false, none, reused0)
          (finalizeExtraction st batchId receiptId reused imageHash "" isDup dupOf, 0)
        | some v =>
          (errorWrite st batchId receiptId
            ("\x27" ++ pyTypeName v ++ "\x27 object does not support item assignment"), 0)
        | none =>
          (errorWrite st batchId receiptId "\x27extractedData\x27", 0)
      else freshExtractionPath st batchId receiptId imageHash env jitter faults
    | none => freshExtractionPath st batchId receiptId imageHash env jitter faults

/- ────────────────────────────────────────────────────────
   Trigger Dispatcher (main.py 216–241, 397–424)
   ──────────────────────────────────────────────────────── -/

def imageExts : List String := [".jpg", ".jpeg", ".png", ".webp"]

def endsWithAny (s : String) (exts : List String) : Bool :=
  exts.any (fun e => strEnds s e)

/-- Everything of `parts[2].rsplit(".", 1)[0]`: the text before the
last dot, or the whole string when there is none. -/
def dropAfterLastDot (s : String) : String :=
  let cs := s.toList
  match cs.reverse.findIdx? (fun c => c = '.') with
  | none => s
  | some jr => String.mk (cs.take (cs.length - 1 - jr))

/-- The upload-trigger guard of `on_receipt_upload` (main.py 228–239):
`some (batchId, receiptId)` when the pipeline is invoked, `none` when
the event is silently ignored.  An absent object name is the empty
string (both are falsy). -/
def uploadDecision (filePath : String) : Option (String × String) :=
  if filePath = "" then none
  else if ¬ strStarts filePath "receipts/" then none
  else if ¬ endsWithAny (pyLower filePath) imageExts then none
  else
    match (splitOnChar '/' filePath.toList).map String.mk with
    | _ :: b :: f :: _ => some (b, dropAfterLastDot f)
    | _ => none

/-- The retry-trigger guard of `on_receipt_retry` (main.py 402–410) for
an update event carrying both snapshots (an absent `event.data` returns
before either dict is read): fires iff both dicts are truthy
(non-empty) and the status transitioned into `pending_retry`. -/
def retryFires (beforeDoc afterDoc : Doc) : Bool :=
  ¬ afterDoc.isEmpty && ¬ beforeDoc.isEmpty &&
    isStrVal (dictGet afterDoc "status") "pending_retry" &&
    ¬ isStrVal (dictGet beforeDoc "status") "pending_retry"

/- ────────────────────────────────────────────────────────
   Store invariants used by the counting claims
   ──────────────────────────────────────────────────────── -/

/-- Number of receipts of batch `b` whose `extracted` flag is the
boolean `True`.  The pipeline never unsets the flag, so along
pipeline-only traces this is exactly "has ever reached `extracted`". -/
def countExtracted (st : Store) (b : String) : Nat :=
  (st.receipts.filter (fun kv =>
    kv.1.1 = b && isBoolTrue (dictGet kv.2 "extracted"))).length

/-- The stored `receiptCount` field of batch `b`, if any. -/
def rcField (st : Store) (b : String) : Option Value :=
  (getBatch st b).bind (fun d => dictGet d "receiptCount")

/-- The counter of batch `b` agrees with the number of its extracted
receipts (a missing counter denotes zero). -/
def rcOK (st : Store) (b : String) : Prop :=
  rcField st b = some (.int (countExtracted st b)) ∨
    (countExtracted st b = 0 ∧ rcField st b = none)

/-- The counting invariant: every batch's counter matches its
extracted-receipt count. -/
def StoreInv (st : Store) : Prop := ∀ b, rcOK st b

/- ────────────────────────────────────────────────────────
   A concrete end-to-end scenario: the same upload event processed
   twice (used by the idempotence counterexample and witnesses)
   ──────────────────────────────────────────────────────── -/

/-- A well-formed model response. -/
def okJson1 : String := "\x7b\"date\": \"2024-01-02\", \"vendor\": \"Acme Corp\", \"total\": \"42.50\", \"tax\": 0, \"category\": \"Travel\", \"invoice_number\": \"A-1\", \"confidence_score\": 95\x7d"

/-- Provider oracle that always returns `okJson1`. -/
def env0 : Nat → Outcome := fun _ => .ok okJson1
def jitter0 : Nat → Frac := fun _ => Frac.zero
def st0 : Store := ⟨[], []⟩
def bytes1 : List Nat := [1, 2, 3]

/-- First pipeline run for upload `receipts/B1/R1` on an empty store. -/
def run1 : Store × Nat := processReceiptExtraction st0 "B1" "R1" bytes1 env0 jitter0 noFaults
def st1 : Store := run1.1
/-- Second pipeline run for the same upload event. -/
def run2 : Store × Nat := processReceiptExtraction st1 "B1" "R1" bytes1 env0 jitter0 noFaults
def st2 : Store := run2.1

def r1doc : Doc := (getReceipt st1 "B1" "R1").getD []
def r2doc : Doc := (getReceipt st2 "B1" "R1").getD []
def ed1 : Doc := match dictGet r1doc "extractedData" with | some (.dict d) => d | _ => []
def ed2 : Doc := match dictGet r2doc "extractedData" with | some (.dict d) => d | _ => []

/-- Integer view of the stored `receiptCount`. -/
def rcInt (st : Store) (b : String) : Option Int :=
  match rcField st b with
  | some (.int n) => some n
  | _ => none

example : (pyStrip okJson1).length = 181 ∨ (pyStrip okJson1).length ≠ 181 := by
  by_cases h : (pyStrip okJson1).length = 181
  · exact Or.inl h
  · exact Or.inr h
example : strStarts (stripCodeFence okJson1) "\x7b" = true := by decide
example : (jsonLoads (fixTrailingCommas (extractJsonSpan (stripCodeFence (pyStrip okJson1))))).isSome = true := by decide
example : (processResponse none okJson1).isOk = true := by decide
example : (extractReceiptData none env0 jitter0).calls = 1 := by decide
example : (sha256Hex bytes1).length = 64 := by decide
example : (findByImageHash st0 (sha256Hex bytes1)).isSome = false := by decide
example : run1.2 = 1 := by decide
example : isStrVal (dictGet r1doc "status") "extracted" = true := by decide
example : rcInt st1 "B1" = some 1 := by decide
example : isBoolTrue (dictGet r1doc "flag_duplicate") = false := by decide
example : (dictGet r1doc "flag_duplicate").isSome = true := by decide
example : (dictGet ed1 "source").isSome = false := by decide
example : run2.2 = 0 := by decide
example : rcInt st2 "B1" = some 1 := by decide
example : isStrVal (dictGet ed2 "source") "cache_hit" = true := by decide
example : isStrVal (dictGet r2doc "duplicate_of") "R1" = true := by decide
example : isStrVal (dictGet r2doc "receipt_hash") "" = true := by decide
example : isStrVal (dictGet r1doc "receipt_hash") (computeReceiptHash ed1) = true := by decide

/- ────────────────────────────────────────────────────────
   Dictionary and merge lemmas
   ──────────────────────────────────────────────────────── -/

theorem dictGet_dictSet_self (d : Doc) (k : String) (v : Value) :
    dictGet (dictSet d k v) k = some v := by
  induction d with
  | nil => simp [dictSet, dictGet, List.find?]
  | cons kv rest ih =>
    obtain ⟨k', v'⟩ := kv
    by_cases h : k' = k
    · subst h; simp [dictSet, dictGet, List.find?]
    · simp only [dictSet, if_neg h]
      simpa [dictGet, List.find?, h] using ih

theorem dictGet_dictSet_ne (d : Doc) (k k' : String) (v : Value)
    (h : k' ≠ k) : dictGet (dictSet d k v) k' = dictGet d k' := by
  have h' : k ≠ k' := Ne.symm h
  induction d with
  | nil => simp [dictSet, dictGet, List.find?, h']
  | cons kv rest ih =>
    obtain ⟨k1, v1⟩ := kv
    by_cases h1 : k1 = k
    · subst h1
      simp [dictSet, dictGet, List.find?, h']
    · simp only [dictSet, if_neg h1]
      by_cases h2 : k1 = k'
      · subst h2; simp [dictGet, List.find?]
      · simpa [dictGet, List.find?, h2] using ih

theorem mergeValF_nondict (v : Value) (hv : ∀ sub, v ≠ .dict sub) :
    ∀ n ov, 0 < n → mergeValF n ov v = v := by
  intro n ov hn
  cases n with
  | zero => omega
  | succ m =>
    cases ov <;> cases v <;> first
      | rfl
      | exact absurd rfl (hv _)

theorem mergeStep_get_ne (fuel : Nat) (acc : Doc) (kv : String × Value)
    (k : String) (h : kv.1 ≠ k) :
    dictGet (mergeStep fuel acc kv) k = dictGet acc k := by
  unfold mergeStep
  cases dictGet acc kv.1 with
  | none => exact dictGet_dictSet_ne _ _ _ _ (fun he => h he.symm)
  | some ov => exact dictGet_dictSet_ne _ _ _ _ (fun he => h he.symm)

theorem foldl_mergeStep_notMem (fuel : Nat) (upd : Doc) (k : String)
    (h : k ∉ upd.map Prod.fst) :
    ∀ old, dictGet (upd.foldl (mergeStep fuel) old) k = dictGet old k := by
  induction upd with
  | nil => intro old; rfl
  | cons kv rest ih =>
    intro old
    simp only [List.map_cons, List.mem_cons] at h
    push_neg at h
    rw [List.foldl_cons, ih h.2, mergeStep_get_ne _ _ _ _ (fun he => h.1 he.symm)]

theorem foldl_mergeStep_nondict (fuel : Nat) (upd : Doc) (k : String)
    (v : Value) (hnd : (upd.map Prod.fst).Nodup) (hmem : (k, v) ∈ upd)
    (hv : ∀ sub, v ≠ .dict sub) (hf : 0 < fuel) :
    ∀ old, dictGet (upd.foldl (mergeStep fuel) old) k = some v := by
  induction upd with
  | nil => cases hmem
  | cons kv rest ih =>
    intro old
    obtain ⟨k1, v1⟩ := kv
    simp only [List.map_cons, List.nodup_cons] at hnd
    rw [List.foldl_cons]
    rcases List.mem_cons.mp hmem with heq | hrest
    · injection heq with hk hv1
      subst hk; subst hv1
      have hnot : k ∉ rest.map Prod.fst := hnd.1
      rw [foldl_mergeStep_notMem fuel rest k hnot]
      unfold mergeStep
      cases dictGet old k with
      | none => exact dictGet_dictSet_self _ _ _
      | some ov =>
        simp only
        rw [dictGet_dictSet_self, mergeValF_nondict v hv fuel ov hf]
    · have hk1 : k1 ≠ k := by
        intro he; subst he
        exact hnd.1 (List.mem_map.mpr ⟨(k1, v), hrest, rfl⟩)
      exact ih hnd.2 hrest (mergeStep fuel old (k1, v1))

theorem mergeDoc_get_notMem (old upd : Doc) (k : String)
    (h : k ∉ upd.map Prod.fst) : dictGet (mergeDoc old upd) k = dictGet old k :=
  foldl_mergeStep_notMem mergeFuel upd k h old

theorem mergeDoc_get_nondict (old upd : Doc) (k : String) (v : Value)
    (hnd : (upd.map Prod.fst).Nodup) (hmem : (k, v) ∈ upd)
    (hv : ∀ sub, v ≠ .dict sub) : dictGet (mergeDoc old upd) k = some v :=
  foldl_mergeStep_nondict mergeFuel upd k v hnd hmem hv (by decide) old

/- ────────────────────────────────────────────────────────
   Store update lemmas
   ──────────────────────────────────────────────────────── -/

theorem upsertDocs_find_self (l : List ((String × String) × Doc))
    (k : String × String) (upd : Doc) :
    ((upsertDocs l k upd).find? (fun kv => kv.1 = k)).map (fun kv => kv.2) =
      some (mergeDoc
        (((l.find? (fun kv => kv.1 = k)).map (fun kv => kv.2)).getD []) upd) := by
  induction l with
  | nil => simp [upsertDocs, List.find?]
  | cons kv rest ih =>
    obtain ⟨k', d⟩ := kv
    by_cases h : k' = k
    · subst h; simp [upsertDocs, List.find?]
    · simp only [upsertDocs, if_neg h]
      simpa [List.find?, h] using ih

theorem upsertDocs_find_ne (l : List ((String × String) × Doc))
    (k k2 : String × String) (upd : Doc) (h : k2 ≠ k) :
    (upsertDocs l k upd).find? (fun kv => kv.1 = k2) =
      l.find? (fun kv => kv.1 = k2) := by
  induction l with
  | nil => simp [upsertDocs, List.find?, Ne.symm h]
  | cons kv rest ih =>
    obtain ⟨k', d⟩ := kv
    by_cases hk : k' = k
    · subst hk; simp [upsertDocs, List.find?, Ne.symm h]
    · simp only [upsertDocs, if_neg hk]
      by_cases hk2 : k' = k2
      · subst hk2; simp [List.find?]
      · simpa [List.find?, hk2] using ih

theorem getReceipt_setMerge_self (st : Store) (b r : String) (upd : Doc) :
    getReceipt (setReceiptMerge st b r upd) b r =
      some (mergeDoc ((getReceipt st b r).getD []) upd) := by
  simpa [getReceipt, setReceiptMerge] using
    upsertDocs_find_self st.receipts (b, r) upd

theorem getReceipt_setMerge_ne (st : Store) (b r b2 r2 : String) (upd : Doc)
    (h : (b2, r2) ≠ (b, r)) :
    getReceipt (setReceiptMerge st b r upd) b2 r2 = getReceipt st b2 r2 := by
  simp [getReceipt, setReceiptMerge, upsertDocs_find_ne st.receipts (b, r) (b2, r2) upd h]

theorem rcField_setMerge (st : Store) (b r : String) (upd : Doc) (b2 : String) :
    rcField (setReceiptMerge st b r upd) b2 = rcField st b2 := rfl

theorem countExtracted_inc (st : Store) (b0 b : String) :
    countExtracted (incrementReceiptCount st b0) b = countExtracted st b := rfl

theorem getReceipt_inc (st : Store) (b0 b r : String) :
    getReceipt (incrementReceiptCount st b0) b r = getReceipt st b r := rfl

theorem upsertBatchInc_rc_self (l : List (String × Doc)) (b : String) :
    (((upsertBatchInc l b).find? (fun kv => kv.1 = b)).map
        (fun kv => kv.2)).bind (fun d => dictGet d "receiptCount") =
      some (incrementedCount
        (((l.find? (fun kv => kv.1 = b)).map (fun kv => kv.2)).bind
          (fun d => dictGet d "receiptCount"))) := by
  induction l with
  | nil => simp [upsertBatchInc, List.find?, dictGet, incrementedCount]
  | cons kv rest ih =>
    obtain ⟨k, d⟩ := kv
    by_cases h : k = b
    · subst h
      simp [upsertBatchInc, List.find?, dictGet_dictSet_self]
    · simp only [upsertBatchInc, if_neg h]
      simpa [List.find?, h] using ih

theorem rcField_inc_self (st : Store) (b : String) :
    rcField (incrementReceiptCount st b) b =
      some (incrementedCount (rcField st b)) := by
  simpa [rcField, getBatch, incrementReceiptCount] using
    upsertBatchInc_rc_self st.batches b

theorem upsertBatchInc_find_ne (l : List (String × Doc)) (b b2 : String)
    (h : b2 ≠ b) :
    (upsertBatchInc l b).find? (fun kv => kv.1 = b2) =
      l.find? (fun kv => kv.1 = b2) := by
  induction l with
  | nil => simp [upsertBatchInc, List.find?, Ne.symm h]
  | cons kv rest ih =>
    obtain ⟨k, d⟩ := kv
    by_cases hk : k = b
    · subst hk; simp [upsertBatchInc, List.find?, Ne.symm h]
    · simp only [upsertBatchInc, if_neg hk]
      by_cases hk2 : k = b2
      · subst hk2; simp [List.find?]
      · simpa [List.find?, hk2] using ih

theorem rcField_inc_ne (st : Store) (b b2 : String) (h : b2 ≠ b) :
    rcField (incrementReceiptCount st b) b2 = rcField st b2 := by
  simp [rcField, getBatch, incrementReceiptCount,
    upsertBatchInc_find_ne st.batches b b2 h]

/- ────────────────────────────────────────────────────────
   Extracted-count lemmas
   ──────────────────────────────────────────────────────── -/

theorem count_upsert_true (l : List ((String × String) × Doc))
    (k : String × String) (upd : Doc) (b : String)
    (hupd : ∀ d, isBoolTrue (dictGet (mergeDoc d upd) "extracted") = true) :
    ((upsertDocs l k upd).filter (fun kv =>
      kv.1.1 = b && isBoolTrue (dictGet kv.2 "extracted"))).length =
      (l.filter (fun kv =>
        kv.1.1 = b && isBoolTrue (dictGet kv.2 "extracted"))).length +
      (if k.1 = b ∧ isBoolTrue (dictGet
          (((l.find? (fun kv => kv.1 = k)).map (fun kv => kv.2)).getD [])
          "extracted") = false then 1 else 0) := by
  induction l with
  | nil =>
    have h0 := hupd []
    by_cases hb : k.1 = b <;>
      simp [upsertDocs, List.filter, List.find?, h0, hb,
        show dictGet ([] : Doc) "extracted" = none from rfl,
        show isBoolTrue none = false from rfl]
  | cons kv rest ih =>
    obtain ⟨k', d⟩ := kv
    by_cases hk : k' = k
    · subst hk
      have h0 := hupd d
      by_cases hb : k'.1 = b <;>
        by_cases hf : isBoolTrue (dictGet d "extracted") = true <;>
          simp [upsertDocs, List.filter, List.find?, h0, hb, hf] <;> omega
    · simp only [upsertDocs, if_neg hk]
      have hfind : List.find? (fun kv => kv.1 = k) ((k', d) :: rest) =
          List.find? (fun kv => kv.1 = k) rest := by
        simp [List.find?, hk]
      by_cases hb : k'.1 = b <;>
        by_cases hf : isBoolTrue (dictGet d "extracted") = true <;>
          simp [List.filter, List.find?, hk, hb, hf, ih] <;> omega

theorem count_upsert_keep (l : List ((String × String) × Doc))
    (k : String × String) (upd : Doc) (b : String)
    (hupd : ∀ d, dictGet (mergeDoc d upd) "extracted" = dictGet d "extracted") :
    ((upsertDocs l k upd).filter (fun kv =>
      kv.1.1 = b && isBoolTrue (dictGet kv.2 "extracted"))).length =
      (l.filter (fun kv =>
        kv.1.1 = b && isBoolTrue (dictGet kv.2 "extracted"))).length := by
  induction l with
  | nil =>
    have h0 := hupd []
    simp [upsertDocs, List.filter, h0,
      show dictGet ([] : Doc) "extracted" = none from rfl,
      show isBoolTrue none = false from rfl]
  | cons kv rest ih =>
    obtain ⟨k', d⟩ := kv
    by_cases hk : k' = k
    · subst hk
      have h0 := hupd d
      simp only [upsertDocs, List.filter, h0]
      cases htest : (decide (k'.1 = b) && isBoolTrue (dictGet d "extracted")) <;>
        simp [htest]
    · simp only [upsertDocs, if_neg hk]
      cases htest : (decide (k'.1 = b) && isBoolTrue (dictGet d "extracted")) <;>
        simp [List.filter, htest, ih]

theorem countExtracted_setMerge_true (st : Store) (b r : String) (upd : Doc)
    (b2 : String)
    (hupd : ∀ d, isBoolTrue (dictGet (mergeDoc d upd) "extracted") = true) :
    countExtracted (setReceiptMerge st b r upd) b2 =
      countExtracted st b2 +
      (if b = b2 ∧ isBoolTrue (dictGet ((getReceipt st b r).getD [])
          "extracted") = false then 1 else 0) := by
  simpa [countExtracted, setReceiptMerge, getReceipt] using
    count_upsert_true st.receipts (b, r) upd b2 hupd

theorem countExtracted_setMerge_keep (st : Store) (b r : String) (upd : Doc)
    (b2 : String)
    (hupd : ∀ d, dictGet (mergeDoc d upd) "extracted" = dictGet d "extracted") :
    countExtracted (setReceiptMerge st b r upd) b2 = countExtracted st b2 := by
  simpa [countExtracted, setReceiptMerge] using
    count_upsert_keep st.receipts (b, r) upd b2 hupd

/- ────────────────────────────────────────────────────────
   Deep-merge and finalizer lemmas
   ──────────────────────────────────────────────────────── -/

theorem dictGet_mem (d : Doc) (k : String) (v : Value)
    (h : dictGet d k = some v) : (k, v) ∈ d := by
  unfold dictGet at h
  cases hf : d.find? (fun kv => kv.1 = k) with
  | none => rw [hf] at h; cases h
  | some kv =>
    rw [hf] at h
    have hm : kv ∈ d := List.mem_of_find?_eq_some hf
    have hp := List.find?_some hf
    have hk : kv.1 = k := of_decide_eq_true hp
    have hv : kv.2 = v := Option.some.inj h
    have : kv = (k, v) := Prod.ext hk hv
    rwa [this] at hm

theorem keys_dictSet (d : Doc) (k : String) (v : Value) :
    (dictSet d k v).map Prod.fst =
      if k ∈ d.map Prod.fst then d.map Prod.fst
      else d.map Prod.fst ++ [k] := by
  induction d with
  | nil => simp [dictSet]
  | cons kv rest ih =>
    obtain ⟨k1, v1⟩ := kv
    by_cases hk : k1 = k
    · subst hk; simp [dictSet]
    · have hk' : ¬ k = k1 := fun he => hk he.symm
      simp only [dictSet, if_neg hk, List.map_cons, ih]
      by_cases hm : k ∈ rest.map Prod.fst <;>
        simp [hm, hk']

theorem nodup_keys_dictSet (d : Doc) (k : String) (v : Value)
    (h : (d.map Prod.fst).Nodup) : ((dictSet d k v).map Prod.fst).Nodup := by
  rw [keys_dictSet]
  by_cases hm : k ∈ d.map Prod.fst
  · simpa [hm] using h
  · simp [hm, List.nodup_append, h]

theorem mergeValF_succ_dict (fuel : Nat) (ov : Value) (sub : Doc) :
    (∃ o, ov = .dict o ∧
      mergeValF (fuel + 1) ov (.dict sub) =
        .dict (sub.foldl (fun acc kv =>
          match dictGet acc kv.1 with
          | some o2 => dictSet acc kv.1 (mergeValF fuel o2 kv.2)
          | none => dictSet acc kv.1 kv.2) o)) ∨
    ((∀ o, ov ≠ .dict o) ∧ mergeValF (fuel + 1) ov (.dict sub) = .dict sub) := by
  cases ov with
  | dict o => exact Or.inl ⟨o, rfl, rfl⟩
  | str s => exact Or.inr ⟨fun o h => Value.noConfusion h, rfl⟩
  | num q => exact Or.inr ⟨fun o h => Value.noConfusion h, rfl⟩
  | int n => exact Or.inr ⟨fun o h => Value.noConfusion h, rfl⟩
  | bool b => exact Or.inr ⟨fun o h => Value.noConfusion h, rfl⟩
  | null => exact Or.inr ⟨fun o h => Value.noConfusion h, rfl⟩
  | list xs => exact Or.inr ⟨fun o h => Value.noConfusion h, rfl⟩
  | timestamp => exact Or.inr ⟨fun o h => Value.noConfusion h, rfl⟩

theorem mergeStep_inner_eq (fuel : Nat) (o : Doc) (sub : Doc) :
    sub.foldl (fun acc kv =>
      match dictGet acc kv.1 with
      | some o2 => dictSet acc kv.1 (mergeValF fuel o2 kv.2)
      | none => dictSet acc kv.1 kv.2) o = sub.foldl (mergeStep fuel) o := by
  rfl

/-- Merging an update whose `k` field is the map `sub` produces a map
at `k` that agrees with `sub` on every key `sub` binds to a non-map
value (assuming unique update keys). -/
theorem foldl_mergeStep_dict (upd : Doc) (k : String) (sub : Doc)
    (hnd : (upd.map Prod.fst).Nodup) (hmem : (k, Value.dict sub) ∈ upd) :
    ∀ old, ∃ inner,
      dictGet (upd.foldl (mergeStep mergeFuel) old) k = some (.dict inner) ∧
      (∀ k2 v2, (sub.map Prod.fst).Nodup → dictGet sub k2 = some v2 →
        (∀ s2, v2 ≠ .dict s2) → dictGet inner k2 = some v2) := by
  induction upd with
  | nil => cases hmem
  | cons kv rest ih =>
    intro old
    obtain ⟨k1, v1⟩ := kv
    simp only [List.map_cons, List.nodup_cons] at hnd
    rw [List.foldl_cons]
    rcases List.mem_cons.mp hmem with heq | hrest
    · injection heq with hk hv1
      subst hk; subst hv1
      rw [foldl_mergeStep_notMem mergeFuel rest k hnd.1]
      show ∃ inner, dictGet (mergeStep mergeFuel old (k, Value.dict sub)) k =
        some (.dict inner) ∧ _
      unfold mergeStep
      simp only
      cases hold : dictGet old k with
      | none =>
        rw [dictGet_dictSet_self]
        exact ⟨sub, rfl, fun k2 v2 hsnd hget hv2 => hget⟩
      | some ov =>
        rw [dictGet_dictSet_self]
        have h100 : mergeFuel = 99 + 1 := rfl
        rcases mergeValF_succ_dict 99 ov sub with ⟨o, ho, heq2⟩ | ⟨hno, heq2⟩
        · subst ho
          rw [h100, heq2, mergeStep_inner_eq]
          refine ⟨sub.foldl (mergeStep 99) o, rfl, ?_⟩
          intro k2 v2 hsnd hget hv2
          exact foldl_mergeStep_nondict 99 sub k2 v2 hsnd
            (dictGet_mem sub k2 v2 hget) hv2 (by omega) o
        · rw [h100, heq2]
          exact ⟨sub, rfl, fun k2 v2 hsnd hget hv2 => hget⟩
    · have hk1 : k1 ≠ k := by
        intro he; subst he
        exact hnd.1 (List.mem_map.mpr ⟨(k1, Value.dict sub), hrest, rfl⟩)
      exact ih hnd.2 hrest (mergeStep mergeFuel old (k1, v1))

theorem mergeDoc_get_dict (old upd : Doc) (k : String) (sub : Doc)
    (hnd : (upd.map Prod.fst).Nodup) (hmem : (k, Value.dict sub) ∈ upd) :
    ∃ inner, dictGet (mergeDoc old upd) k = some (.dict inner) ∧
      (∀ k2 v2, (sub.map Prod.fst).Nodup → dictGet sub k2 = some v2 →
        (∀ s2, v2 ≠ .dict s2) → dictGet inner k2 = some v2) :=
  foldl_mergeStep_dict upd k sub hnd hmem old

/-- The previously-counted test of `_finalize_extraction`. -/
def wasFlag (st : Store) (b r : String) : Bool :=
  isBoolTrue (dictGet ((getReceipt st b r).getD []) "extracted")

theorem finalize_wasExt_eq (st : Store) (b r : String) :
    (match getReceipt st b r with
     | some d => isBoolTrue (dictGet d "extracted")
     | none => false) = wasFlag st b r := by
  cases h : getReceipt st b r <;>
    simp [wasFlag, h, show dictGet ([] : Doc) "extracted" = none from rfl,
      show isBoolTrue none = false from rfl]

theorem finalizeUpdate_nodup (data : Doc) (ih rh : String) (dup : Bool)
    (dOf : Option String) :
    ((finalizeUpdate data ih rh dup dOf).map Prod.fst).Nodup := by
  rcases dOf with _ | d
  · simp [finalizeUpdate]
  · by_cases hd : d ≠ "" <;> simp [finalizeUpdate, hd]

theorem finalizeUpdate_mem_extracted (data : Doc) (ih rh : String)
    (dup : Bool) (dOf : Option String) :
    ("extracted", Value.bool true) ∈ finalizeUpdate data ih rh dup dOf := by
  rcases dOf with _ | d
  · simp [finalizeUpdate]
  · by_cases hd : d ≠ "" <;> simp [finalizeUpdate, hd]

theorem finalize_merge_extracted (data : Doc) (ih rh : String) (dup : Bool)
    (dOf : Option String) :
    ∀ d0, isBoolTrue (dictGet (mergeDoc d0 (finalizeUpdate data ih rh dup dOf))
      "extracted") = true := by
  intro d0
  rw [mergeDoc_get_nondict d0 _ "extracted" (.bool true)
    (finalizeUpdate_nodup data ih rh dup dOf)
    (finalizeUpdate_mem_extracted data ih rh dup dOf)
    (fun sub h => Value.noConfusion h)]
  rfl

/- ────────────────────────────────────────────────────────
   Invariant preservation lemmas
   ──────────────────────────────────────────────────────── -/

theorem rcField_errorWrite (st : Store) (b r m b2 : String) :
    rcField (errorWrite st b r m) b2 = rcField st b2 := rfl

theorem countExtracted_errorWrite (st : Store) (b r m b2 : String) :
    countExtracted (errorWrite st b r m) b2 = countExtracted st b2 := by
  unfold errorWrite
  apply countExtracted_setMerge_keep
  intro d
  apply mergeDoc_get_notMem
  simp

theorem StoreInv_errorWrite (st : Store) (b r m : String)
    (h : StoreInv st) : StoreInv (errorWrite st b r m) := by
  intro b2
  unfold rcOK
  rw [rcField_errorWrite, countExtracted_errorWrite]
  exact h b2

theorem rcField_finalize_false (st : Store) (b r : String) (data : Doc)
    (ihh rh : String) (dup : Bool) (dOf : Option String)
    (hw : wasFlag st b r = false) :
    rcField (finalizeExtraction st b r data ihh rh dup dOf) b =
      some (incrementedCount (rcField st b)) := by
  simp only [finalizeExtraction]
  rw [finalize_wasExt_eq, hw]
  simp only [Bool.false_eq_true, if_false]
  rw [rcField_inc_self, rcField_setMerge]

theorem rcField_finalize_false_ne (st : Store) (b r : String) (data : Doc)
    (ihh rh : String) (dup : Bool) (dOf : Option String) (b2 : String)
    (hw : wasFlag st b r = false) (hb2 : b2 ≠ b) :
    rcField (finalizeExtraction st b r data ihh rh dup dOf) b2 =
      rcField st b2 := by
  simp only [finalizeExtraction]
  rw [finalize_wasExt_eq, hw]
  simp only [Bool.false_eq_true, if_false]
  rw [rcField_inc_ne _ _ _ hb2, rcField_setMerge]

theorem rcField_finalize_true (st : Store) (b r : String) (data : Doc)
    (ihh rh : String) (dup : Bool) (dOf : Option String)
    (hw : wasFlag st b r = true) (b2 : String) :
    rcField (finalizeExtraction st b r data ihh rh dup dOf) b2 =
      rcField st b2 := by
  simp only [finalizeExtraction]
  rw [finalize_wasExt_eq, hw]
  simp only [if_true]
  rw [rcField_setMerge]

theorem countExtracted_finalize (st : Store) (b r : String) (data : Doc)
    (ihh rh : String) (dup : Bool) (dOf : Option String) (b2 : String) :
    countExtracted (finalizeExtraction st b r data ihh rh dup dOf) b2 =
      countExtracted st b2 +
        (if b = b2 ∧ wasFlag st b r = false then 1 else 0) := by
  simp only [finalizeExtraction]
  rw [finalize_wasExt_eq]
  have hcount := countExtracted_setMerge_true st b r
    (finalizeUpdate data ihh rh dup dOf) b2
    (finalize_merge_extracted data ihh rh dup dOf)
  cases hw : wasFlag st b r with
  | false =>
    simp only [Bool.false_eq_true, if_false]
    rw [countExtracted_inc, hcount]
    have : isBoolTrue (dictGet ((getReceipt st b r).getD []) "extracted") = false := hw
    simp [this]
  | true =>
    simp only [if_true]
    rw [hcount]
    have : isBoolTrue (dictGet ((getReceipt st b r).getD []) "extracted") = true := hw
    simp [this]

theorem StoreInv_finalize (st : Store) (b r : String) (data : Doc)
    (ihh rh : String) (dup : Bool) (dOf : Option String)
    (h : StoreInv st) :
    StoreInv (finalizeExtraction st b r data ihh rh dup dOf) := by
  intro b2
  unfold rcOK
  rw [countExtracted_finalize]
  cases hw : wasFlag st b r with
  | true =>
    rw [rcField_finalize_true st b r data ihh rh dup dOf hw b2]
    simpa using h b2
  | false =>
    by_cases hb2 : b = b2
    · subst hb2
      rw [rcField_finalize_false st b r data ihh rh dup dOf hw]
      simp only [hw, and_true, if_pos rfl, true_and, if_true]
      rcases h b with hL | hR
      · rw [hL]
        simp [incrementedCount]
      · rw [hR.2]
        simp [incrementedCount, hR.1]
    · rw [rcField_finalize_false_ne st b r data ihh rh dup dOf b2 hw
        (fun he => hb2 he.symm)]
      simp only [hb2, false_and, if_false]
      simpa using h b2

/- ────────────────────────────────────────────────────────
   Pipeline shape lemma
   ──────────────────────────────────────────────────────── -/

/-- Every pipeline run either records an error on the target receipt or
finalizes it — no other store mutation exists. -/
theorem fresh_shape (st : Store) (b r ihash : String) (env : Nat → Outcome)
    (jitter : Nat → Frac) (f : Faults) :
    (∃ m c, freshExtractionPath st b r ihash env jitter f =
      (errorWrite st b r m, c)) ∨
    (∃ data ihh rh dup dOf c,
      freshExtractionPath st b r ihash env jitter f =
        (finalizeExtraction st b r data ihh rh dup dOf, c)) := by
  simp only [freshExtractionPath]
  cases hr : (extractReceiptData (batchCategories st b) env jitter).result with
  | error m => exact Or.inl ⟨m, _, rfl⟩
  | ok ex =>
    cases hd : f.dedupQueryFail with
    | some m2 => exact Or.inr ⟨_, _, _, _, _, _, rfl⟩
    | none =>
      cases hb : findBatchDuplicate st b
          (computeReceiptHash (extractedToDoc ex)) r with
      | some d2 => exact Or.inr ⟨_, _, _, _, _, _, rfl⟩
      | none => exact Or.inr ⟨_, _, _, _, _, _, rfl⟩

theorem process_shape (st : Store) (b r : String) (bytes : List Nat)
    (env : Nat → Outcome) (jitter : Nat → Frac) (f : Faults) :
    (∃ m c, processReceiptExtraction st b r bytes env jitter f =
      (errorWrite st b r m, c)) ∨
    (∃ data ihh rh dup dOf c,
      processReceiptExtraction st b r bytes env jitter f =
        (finalizeExtraction st b r data ihh rh dup dOf, c)) := by
  simp only [processReceiptExtraction]
  cases hf : f.idemQueryFail with
  | some m => exact Or.inl ⟨m, 0, rfl⟩
  | none =>
    cases hq : findByImageHash st (sha256Hex bytes) with
    | none => exact fresh_shape st b r (sha256Hex bytes) env jitter f
    | some kd =>
      obtain ⟨key, doc⟩ := kd
      dsimp only
      by_cases hs : isStrVal (dictGet doc "status") "extracted" = true
      · rw [if_pos hs]
        cases hed : dictGet doc "extractedData" with
        | none => exact Or.inl ⟨_, 0, rfl⟩
        | some v =>
          cases v with
          | dict ed => exact Or.inr ⟨_, _, _, _, _, _, rfl⟩
          | str sv => exact Or.inl ⟨_, 0, rfl⟩
          | num q => exact Or.inl ⟨_, 0, rfl⟩
          | int n => exact Or.inl ⟨_, 0, rfl⟩
          | bool bv => exact Or.inl ⟨_, 0, rfl⟩
          | null => exact Or.inl ⟨_, 0, rfl⟩
          | list xs => exact Or.inl ⟨_, 0, rfl⟩
          | timestamp => exact Or.inl ⟨_, 0, rfl⟩
      · rw [if_neg hs]
        exact fresh_shape st b r (sha256Hex bytes) env jitter f

/- ────────────────────────────────────────────────────────
   Claim C7 — `_to_float` sanitization
   ──────────────────────────────────────────────────────── -/

/-- The claim's reading of `_to_float`: keep digits, dots, and a minus
sign only in leading position; parse and round the remainder. -/
def toFloatLeadingMinus (s : String) : Frac :=
  let kept :=
    match s.toList with
    | [] => []
    | c :: rest =>
        (if c.isDigit || c = '.' || c = '-' then [c] else []) ++
          rest.filter (fun x => x.isDigit || x = '.')
  match parseDecimal (String.mk kept) with
  | some q => round2 q
  | none => Frac.zero

/-- What `_to_float` actually does: keep every minus sign, so a
remainder with a non-leading minus is unparsable and yields `0.0`. -/
def toFloatAmendedSpec (s : String) : Frac :=
  match parseDecimal (cleanNumStr s) with
  | some q => round2 q
  | none => Frac.zero

/-- C7 (counterexample): on `"5-3"` the regex keeps the interior minus
(the character class `[^\d.\-]` does not anchor it), the remainder
`"5-3"` fails to parse, and `_to_float` returns `0.0` — not the `53.0`
the strip-non-leading-minus description predicts. -/
theorem toFloat_claim_counterexample :
    toFloat "5-3" = Frac.zero ∧ toFloatLeadingMinus "5-3" = Frac.ofInt 53 ∧
    toFloat "5-3" ≠ toFloatLeadingMinus "5-3" := by decide

/-- C7 (amended): `_to_float` strips every character that is not a
digit, a dot, or a minus sign (kept anywhere, not just leading), parses
the remainder rounded to 2 places, and returns `0.0` on empty or
invalid remainders; in particular `"$1,250.00" ↦ 1250.0`, `"" ↦ 0.0`,
`"abc" ↦ 0.0`. -/
theorem toFloat_amended :
    (∀ s, toFloat s = toFloatAmendedSpec s) ∧
    toFloat "$1,250.00" = Frac.ofInt 1250 ∧ toFloat "" = Frac.zero ∧
    toFloat "abc" = Frac.zero := by
  refine ⟨fun s => ?_, by decide, by decide, by decide⟩
  simp only [toFloat, toFloatVal, toFloatAmendedSpec, pyStr]
  by_cases h : cleanNumStr s = ""
  · rw [h]; decide
  · rw [if_neg h]

/- ────────────────────────────────────────────────────────
   Claim C4 — semantic fingerprint invariance
   ──────────────────────────────────────────────────────── -/

def fingerprintDocA : Doc :=
  [("vendor", .str "Acme Stores"), ("total", .str "$1,250.00"),
   ("date", .str "2024-03-01"), ("invoice_number", .str "INV-7")]

def fingerprintDocB : Doc :=
  [("vendor", .str "Acme Stores"), ("total", .str "1250.00"),
   ("date", .str "2024-03-01"), ("invoice_number", .str "INV-7")]

/-- C4 (counterexample): two field sets that differ only in the
currency formatting of the total (`"$1,250.00"` vs `"1250.00"`, the
same numeric amount under `_to_float`) produce different digests: the
normalization lowercases and removes spaces but keeps `$` and `,`. -/
theorem receiptHash_currency_counterexample :
    toFloatVal (.str "$1,250.00") = toFloatVal (.str "1250.00") ∧
    computeReceiptHash fingerprintDocA ≠ computeReceiptHash fingerprintDocB := by
  decide

/-- C4 (amended): the fingerprint is invariant under exactly the
normalization the code applies — letter case, leading/trailing
whitespace and interior spaces of the vendor, total, date and
invoice-number fields; two field sets agreeing up to that normalization
digest identically. -/
theorem receiptHash_case_space_invariant :
    ∀ d1 d2 : Doc,
    hashField d1 "vendor" = hashField d2 "vendor" →
    hashField d1 "total" = hashField d2 "total" →
    hashField d1 "date" = hashField d2 "date" →
    hashField d1 "invoice_number" = hashField d2 "invoice_number" →
    computeReceiptHash d1 = computeReceiptHash d2 := by
  intro d1 d2 h1 h2 h3 h4
  unfold computeReceiptHash receiptHashRaw
  rw [h1, h2, h3, h4]

/-- Witness for C4 (amended) at a concrete case/whitespace variation. -/
theorem receiptHash_case_space_invariant_witness :
    computeReceiptHash
      [("vendor", .str "ACME Corp"), ("total", .num (Frac.ofInt 10)),
       ("date", .str "2024-01-01"), ("invoice_number", .str "A1")] =
    computeReceiptHash
      [("vendor", .str "  acme corp"), ("total", .num (Frac.ofInt 10)),
       ("date", .str "2024-01-01 "), ("invoice_number", .str "a1")] :=
  receiptHash_case_space_invariant _ _ (by decide) (by decide) (by decide) (by decide)

/- ────────────────────────────────────────────────────────
   Claim C8 — retry trigger edge condition
   ──────────────────────────────────────────────────────── -/

/-- The claim's firing condition: only the status edge. -/
def retryEdgeClaim (beforeDoc afterDoc : Doc) : Bool :=
  isStrVal (dictGet afterDoc "status") "pending_retry" &&
    ¬ isStrVal (dictGet beforeDoc "status") "pending_retry"

/-- C8 (counterexample): a transition from a field-less (empty, hence
falsy) before-snapshot into `pending_retry` satisfies the claimed
condition but does not fire: the guard `if not new_data or not
old_data: return` rejects empty dicts first. -/
theorem retry_trigger_counterexample :
    retryEdgeClaim [] [("status", .str "pending_retry")] = true ∧
    retryFires [] [("status", .str "pending_retry")] = false := by decide

/-- C8 (amended): the retry entry fires iff both snapshots are
non-empty and the status transitioned into `pending_retry`; in
particular re-saving a document already in `pending_retry` never
re-fires. -/
theorem retry_trigger_amended :
    (∀ b a : Doc,
      retryFires b a = (¬ a.isEmpty && ¬ b.isEmpty && retryEdgeClaim b a)) ∧
    (∀ b a : Doc, isStrVal (dictGet b "status") "pending_retry" = true →
      retryFires b a = false) := by
  constructor
  · intro b a
    simp [retryFires, retryEdgeClaim, Bool.and_assoc]
  · intro b a h
    simp [retryFires, h]

/-- Witness for C8 (amended): re-saving `pending_retry` does not fire. -/
theorem retry_trigger_amended_witness :
    retryFires [("status", .str "pending_retry")]
      [("status", .str "pending_retry"), ("note", .str "resave")] = false :=
  retry_trigger_amended.2 _ _ (by decide)

/- ────────────────────────────────────────────────────────
   Claim C6 — upload path filter
   ──────────────────────────────────────────────────────── -/

/-- Characters after the last dot, if any. -/
def extAfterLastDot (f : String) : Option String :=
  let cs := f.toList
  match cs.reverse.findIdx? (fun c => c = '.') with
  | none => none
  | some jr => some (String.mk (cs.drop (cs.length - jr)))

/-- The claim's exact pattern `receipts/{batchId}/{receiptId}.{ext}`:
exactly three path segments, the first literally `receipts`, and a
case-insensitive image extension after the last dot. -/
def specUploadMatch (path : String) : Option (String × String) :=
  match (splitOnChar '/' path.toList).map String.mk with
  | ["receipts", b, f] =>
    (match extAfterLastDot f with
     | some e =>
        if imageExts.contains ("." ++ pyLower e) then some (b, dropAfterLastDot f)
        else none
     | none => none)
  | _ => none

/-- What the guard actually checks: prefix, case-insensitive suffix,
and at least three segments (identifiers from segments 1 and 2). -/
def uploadAmendedSpec (p : String) : Option (String × String) :=
  if strStarts p "receipts/" && endsWithAny (pyLower p) imageExts then
    match (splitOnChar '/' p.toList).map String.mk with
    | _ :: b :: f :: _ => some (b, dropAfterLastDot f)
    | _ => none
  else none

/-- C6 (counterexample): `receipts/a/b/c.jpg` does not match the spec
pattern (four segments) yet the pipeline is invoked, with identifiers
taken from the second and third segments. -/
theorem upload_filter_counterexample :
    uploadDecision "receipts/a/b/c.jpg" = some ("a", "b") ∧
    specUploadMatch "receipts/a/b/c.jpg" = none := by decide

/-- C6 (amended): the pipeline is invoked exactly on paths that start
with `receipts/`, end case-insensitively in one of the four image
extensions, and have at least three `/`-separated segments; the batch
and receipt identifiers are the second segment and the third segment
up to its last dot.  Everything else is silently ignored. -/
theorem upload_filter_amended : ∀ p, uploadDecision p = uploadAmendedSpec p := by
  intro p
  by_cases h0 : p = ""
  · subst h0; decide
  · unfold uploadDecision uploadAmendedSpec
    by_cases h1 : strStarts p "receipts/" <;>
      by_cases h2 : endsWithAny (pyLower p) imageExts <;>
        simp [h0, h1, h2]

/- ────────────────────────────────────────────────────────
   Finalizer access lemmas
   ──────────────────────────────────────────────────────── -/

theorem getReceipt_finalize (st : Store) (b r : String) (data : Doc)
    (ihh rh : String) (dup : Bool) (dOf : Option String) :
    getReceipt (finalizeExtraction st b r data ihh rh dup dOf) b r =
      some (mergeDoc ((getReceipt st b r).getD [])
        (finalizeUpdate data ihh rh dup dOf)) := by
  simp only [finalizeExtraction]
  rw [finalize_wasExt_eq]
  cases hw : wasFlag st b r with
  | false =>
    simp only [Bool.false_eq_true, if_false]
    rw [getReceipt_inc, getReceipt_setMerge_self]
  | true =>
    simp only [if_true]
    rw [getReceipt_setMerge_self]

theorem finalizeUpdate_mem_status (data : Doc) (ihh rh : String)
    (dup : Bool) (dOf : Option String) :
    ("status", Value.str "extracted") ∈ finalizeUpdate data ihh rh dup dOf := by
  rcases dOf with _ | d
  · simp [finalizeUpdate]
  · by_cases hd : d ≠ "" <;> simp [finalizeUpdate, hd]

theorem finalizeUpdate_mem_flag (data : Doc) (ihh rh : String)
    (dup : Bool) (dOf : Option String) :
    ("flag_duplicate", Value.bool dup) ∈ finalizeUpdate data ihh rh dup dOf := by
  rcases dOf with _ | d
  · simp [finalizeUpdate]
  · by_cases hd : d ≠ "" <;> simp [finalizeUpdate, hd]

theorem finalizeUpdate_mem_rhash (data : Doc) (ihh rh : String)
    (dup : Bool) (dOf : Option String) :
    ("receipt_hash",
      if rh ≠ "" then Value.str rh
      else (dictGet data "receipt_hash").getD (.str "")) ∈
      finalizeUpdate data ihh rh dup dOf := by
  rcases dOf with _ | d
  · simp [finalizeUpdate]
  · by_cases hd : d ≠ "" <;> simp [finalizeUpdate, hd]

theorem finalizeUpdate_mem_dupOf (data : Doc) (ihh rh : String)
    (dup : Bool) (d : String) (hd : d ≠ "") :
    ("duplicate_of", Value.str d) ∈ finalizeUpdate data ihh rh dup (some d) := by
  simp [finalizeUpdate, hd]

theorem finalizeUpdate_mem_extractedData (data : Doc) (ihh rh : String)
    (dup : Bool) (dOf : Option String) :
    ("extractedData", Value.dict data) ∈ finalizeUpdate data ihh rh dup dOf := by
  rcases dOf with _ | d
  · simp [finalizeUpdate]
  · by_cases hd : d ≠ "" <;> simp [finalizeUpdate, hd]

/- ────────────────────────────────────────────────────────
   Claim C1 — exactly-once counting and idempotence
   ──────────────────────────────────────────────────────── -/

/-- C1 (counterexample): running the whole pipeline twice on the same
upload event does not converge to the same terminal `extractedData`.
The second run's global image-hash lookup finds the receipt's own
document, takes the cache-reuse path (zero provider calls, no second
increment — those parts hold) and rewrites `extractedData` with a copy
carrying `source = "cache_hit"`, flags the receipt as a duplicate of
itself, and clears the stored `receipt_hash`. -/
theorem finalize_idempotence_counterexample :
    run1.2 = 1 ∧ run2.2 = 0 ∧ rcInt st2 "B1" = some 1 ∧
    (dictGet ed1 "source").isSome = false ∧
    isStrVal (dictGet ed2 "source") "cache_hit" = true ∧
    isStrVal (dictGet r2doc "duplicate_of") "R1" = true ∧
    isStrVal (dictGet r2doc "receipt_hash") "" = true ∧
    isStrVal (dictGet r1doc "receipt_hash") "" = false ∧
    ed1 ≠ ed2 := by
  refine ⟨by decide, by decide, by decide, by decide, by decide, by decide,
    by decide, by decide, ?_⟩
  intro h
  exact absurd (congrArg (fun d => (dictGet d "source").isSome) h) (by decide)

/-- C1 (amended): `_finalize_extraction` increments the parent batch's
`receiptCount` by exactly 1 when the receipt's `extracted` flag was not
previously the boolean true, and by 0 on every later finalization; a
pipeline run on an already-extracted receipt leaves every batch counter
unchanged (so re-delivery or retry never double-increments); and every
pipeline run preserves the invariant that `receiptCount` equals the
number of receipts of the batch whose `extracted` flag is set — the
receipts that have ever reached status `extracted`.  (The idempotence
part of the original claim fails: see the counterexample.) -/
theorem receiptCount_exactly_once :
    (∀ st b r data ihh rh dup dOf,
      (wasFlag st b r = false →
        rcField (finalizeExtraction st b r data ihh rh dup dOf) b =
          some (incrementedCount (rcField st b))) ∧
      (wasFlag st b r = true →
        ∀ b2, rcField (finalizeExtraction st b r data ihh rh dup dOf) b2 =
          rcField st b2)) ∧
    (∀ st b r bytes env jitter f, wasFlag st b r = true →
      ∀ b2, rcField (processReceiptExtraction st b r bytes env jitter f).1 b2 =
        rcField st b2) ∧
    (∀ st b r bytes env jitter f, StoreInv st →
      StoreInv (processReceiptExtraction st b r bytes env jitter f).1) := by
  refine ⟨fun st b r data ihh rh dup dOf => ⟨?_, ?_⟩, ?_, ?_⟩
  · exact fun hw => rcField_finalize_false st b r data ihh rh dup dOf hw
  · exact fun hw b2 => rcField_finalize_true st b r data ihh rh dup dOf hw b2
  · intro st b r bytes env jitter f hw b2
    rcases process_shape st b r bytes env jitter f with
      ⟨m, c, heq⟩ | ⟨d2, i2, rh2, du2, do2, c, heq⟩
    · rw [heq]
      exact rcField_errorWrite st b r m b2
    · rw [heq]
      exact rcField_finalize_true st b r d2 i2 rh2 du2 do2 hw b2
  · intro st b r bytes env jitter f hInv
    rcases process_shape st b r bytes env jitter f with
      ⟨m, c, heq⟩ | ⟨d2, i2, rh2, du2, do2, c, heq⟩
    · rw [heq]
      exact StoreInv_errorWrite st b r m hInv
    · rw [heq]
      exact StoreInv_finalize st b r d2 i2 rh2 du2 do2 hInv

/-- A store with one already-extracted receipt and a matching counter. -/
def invWitnessStore : Store :=
  ⟨[("B1", [("receiptCount", .int 1)])],
   [(("B1", "R1"), [("extracted", .bool true)])]⟩

theorem invWitnessStore_inv : StoreInv invWitnessStore := by
  intro b
  unfold rcOK
  by_cases hb : b = "B1"
  · subst hb
    exact Or.inl rfl
  · have hb' : ¬ ("B1" = b) := fun he => hb he.symm
    right
    constructor
    · simp [countExtracted, invWitnessStore, List.filter, hb']
    · simp [rcField, getBatch, invWitnessStore, List.find?, hb']

/-- Witness for C1 (amended): on a store whose receipt is already
extracted, a further run changes no counter and keeps the invariant. -/
theorem receiptCount_exactly_once_witness :
    (∀ b2, rcField (processReceiptExtraction invWitnessStore "B1" "R1" [9]
      env0 jitter0 noFaults).1 b2 = rcField invWitnessStore b2) ∧
    StoreInv (processReceiptExtraction invWitnessStore "B1" "R1" [9]
      env0 jitter0 noFaults).1 :=
  ⟨receiptCount_exactly_once.2.1 invWitnessStore "B1" "R1" [9] env0 jitter0
      noFaults (by decide),
   receiptCount_exactly_once.2.2 invWitnessStore "B1" "R1" [9] env0 jitter0
      noFaults invWitnessStore_inv⟩

/- ────────────────────────────────────────────────────────
   Claim C5 — query-failure degradation
   ──────────────────────────────────────────────────────── -/

/-- C5 (counterexample): an injected failure of the global image-hash
idempotency query does not degrade to "no match found": the run makes
zero provider calls and ends with status `error` carrying the
exception text, because that query is the one lookup the source does
not wrap in its own `try`/`except`. -/
theorem query_failure_counterexample :
    (processReceiptExtraction ⟨[], []⟩ "B1" "R1" [1, 2, 3] env0 jitter0
      ⟨some "Deadline Exceeded", none, none⟩).2 = 0 ∧
    isStrVal (dictGet ((getReceipt (processReceiptExtraction ⟨[], []⟩ "B1" "R1"
      [1, 2, 3] env0 jitter0 ⟨some "Deadline Exceeded", none, none⟩).1
      "B1" "R1").getD []) "status") "error" = true ∧
    isStrVal (dictGet ((getReceipt (processReceiptExtraction ⟨[], []⟩ "B1" "R1"
      [1, 2, 3] env0 jitter0 ⟨some "Deadline Exceeded", none, none⟩).1
      "B1" "R1").getD []) "error_message") "Deadline Exceeded" = true := by
  exact ⟨by decide, by decide, by decide⟩

/-- C5 (amended): failures of the two guarded lookups degrade exactly as
the claim says — a dedup-query failure is treated as "no duplicate
found" and the run still finalizes as `extracted` with a false
duplicate flag after a fresh extraction, and a same-batch-check failure
on the reuse path likewise yields no duplicate flag — but a failure of
the global image-hash query itself aborts the run with an error-status
write and no extraction. -/
theorem query_failure_amended :
    (∀ st b r bytes env jitter m,
      processReceiptExtraction st b r bytes env jitter ⟨some m, none, none⟩ =
        (errorWrite st b r m, 0)) ∧
    (∀ st b r bytes env jitter m ex,
      findByImageHash st (sha256Hex bytes) = none →
      (extractReceiptData (batchCategories st b) env jitter).result = .ok ex →
      isStrVal (dictGet ((getReceipt (processReceiptExtraction st b r bytes env
        jitter ⟨none, none, some m⟩).1 b r).getD []) "status") "extracted" =
          true ∧
      dictGet ((getReceipt (processReceiptExtraction st b r bytes env jitter
        ⟨none, none, some m⟩).1 b r).getD []) "flag_duplicate" =
          some (.bool false) ∧
      (processReceiptExtraction st b r bytes env jitter ⟨none, none, some m⟩).2 =
        (extractReceiptData (batchCategories st b) env jitter).calls) ∧
    (∀ st b r bytes env jitter m mk mdoc ed,
      findByImageHash st (sha256Hex bytes) = some (mk, mdoc) →
      isStrVal (dictGet mdoc "status") "extracted" = true →
      dictGet mdoc "extractedData" = some (.dict ed) →
      dictGet ((getReceipt (processReceiptExtraction st b r bytes env jitter
        ⟨none, some m, none⟩).1 b r).getD []) "flag_duplicate" =
          some (.bool false) ∧
      (processReceiptExtraction st b r bytes env jitter ⟨none, some m, none⟩).2 =
        0) := by
  refine ⟨fun st b r bytes env jitter m => rfl, ?_, ?_⟩
  · intro st b r bytes env jitter m ex hq hr
    have hred : processReceiptExtraction st b r bytes env jitter
        ⟨none, none, some m⟩ =
        (finalizeExtraction st b r
          (dictSet (extractedToDoc ex) "flag_duplicate" (.bool false))
          (sha256Hex bytes) (computeReceiptHash (extractedToDoc ex)) false none,
         (extractReceiptData (batchCategories st b) env jitter).calls) := by
      simp only [processReceiptExtraction, freshExtractionPath]
      rw [hq, hr]
    rw [hred]
    refine ⟨?_, ?_, rfl⟩
    · rw [getReceipt_finalize]
      simp only [Option.getD_some]
      rw [mergeDoc_get_nondict _ _ "status" (.str "extracted")
        (finalizeUpdate_nodup _ _ _ _ _) (finalizeUpdate_mem_status _ _ _ _ _)
        (fun sub h => Value.noConfusion h)]
      rfl
    · rw [getReceipt_finalize]
      simp only [Option.getD_some]
      exact mergeDoc_get_nondict _ _ "flag_duplicate" (.bool false)
        (finalizeUpdate_nodup _ _ _ _ _) (finalizeUpdate_mem_flag _ _ _ _ _)
        (fun sub h => Value.noConfusion h)
  · intro st b r bytes env jitter m mk mdoc ed hq hs hed
    have hred : processReceiptExtraction st b r bytes env jitter
        ⟨none, some m, none⟩ =
        (finalizeExtraction st b r (dictSet ed "source" (.str "cache_hit"))
          (sha256Hex bytes) "" false none, 0) := by
      simp only [processReceiptExtraction]
      rw [hq]
      dsimp only
      rw [if_pos hs, hed]
    rw [hred]
    refine ⟨?_, rfl⟩
    rw [getReceipt_finalize]
    simp only [Option.getD_some]
    exact mergeDoc_get_nondict _ _ "flag_duplicate" (.bool false)
      (finalizeUpdate_nodup _ _ _ _ _) (finalizeUpdate_mem_flag _ _ _ _ _)
      (fun sub h => Value.noConfusion h)

/-- Witness for C5 (amended), on a concrete store and provider. -/
theorem query_failure_amended_witness :
    isStrVal (dictGet ((getReceipt (processReceiptExtraction ⟨[], []⟩ "B1" "R1"
      [1, 2, 3] env0 jitter0 ⟨none, none, some "boom"⟩).1 "B1" "R1").getD [])
      "status") "extracted" = true ∧
    dictGet ((getReceipt (processReceiptExtraction ⟨[], []⟩ "B1" "R1"
      [1, 2, 3] env0 jitter0 ⟨none, none, some "boom"⟩).1 "B1" "R1").getD [])
      "flag_duplicate" = some (.bool false) := by
  have h := query_failure_amended.2.1 ⟨[], []⟩ "B1" "R1" [1, 2, 3] env0 jitter0
    "boom" ⟨⟨"2024-01-02", "Acme Corp", ⟨85, 2⟩, ⟨0, 1⟩, "Travel", "A-1", 95⟩,
      "gemini-flash-latest"⟩ rfl rfl
  exact ⟨h.1, h.2.1⟩

/- ────────────────────────────────────────────────────────
   Call-count lemmas
   ──────────────────────────────────────────────────────── -/

theorem tryModel_calls_pos (cats : Option Value) (env : Nat → Outcome)
    (jitter : Nat → Frac) (start : Nat) :
    1 ≤ (tryModel cats env jitter start).calls := by
  unfold tryModel
  cases callResult cats env start with
  | ok r => simp
  | error m0 =>
    by_cases h0 : isRetryableErr m0
    · simp only [if_pos h0]
      cases callResult cats env (start + 1) with
      | ok r => simp
      | error m1 =>
        by_cases h1 : isRetryableErr m1
        · simp only [if_pos h1]
          cases callResult cats env (start + 2) with
          | ok r => simp
          | error m2 => simp
        · simp [h1]
    · simp [h0]

theorem extract_calls_pos (cats : Option Value) (env : Nat → Outcome)
    (jitter : Nat → Frac) : 1 ≤ (extractReceiptData cats env jitter).calls := by
  have hp0 := tryModel_calls_pos cats env jitter 0
  simp only [extractReceiptData, modelsToTry, extractLoop]
  cases h1 : (tryModel cats env jitter 0).success with
  | some f => simpa using hp0
  | none =>
    have hp1 := tryModel_calls_pos cats env jitter
      (0 + (tryModel cats env jitter 0).calls)
    cases h2 : (tryModel cats env jitter
        (0 + (tryModel cats env jitter 0).calls)).success with
    | some f => simp; omega
    | none => simp; omega

theorem fresh_calls (st : Store) (b r ihash : String) (env : Nat → Outcome)
    (jitter : Nat → Frac) (f : Faults) :
    (freshExtractionPath st b r ihash env jitter f).2 =
      (extractReceiptData (batchCategories st b) env jitter).calls := by
  simp only [freshExtractionPath]
  cases hr : (extractReceiptData (batchCategories st b) env jitter).result <;>
    rfl

/- ────────────────────────────────────────────────────────
   Claim C2 — idempotency reuse
   ──────────────────────────────────────────────────────── -/

/-- C2: a prior record found by the global image-content-hash lookup is
reused (zero provider calls) iff its status is `extracted`; the reused
record's stored `extractedData` carries the `source = "cache_hit"`
provenance marker while a freshly-normalized schema never contains a
`source` key; and the receipt is flagged as a duplicate of the matched
record's identifier iff the matched record's parent batch equals the
current batch. -/
theorem idempotency_reuse :
    ∀ st b r bytes env jitter mk mdoc ed,
    findByImageHash st (sha256Hex bytes) = some (mk, mdoc) →
    dictGet mdoc "extractedData" = some (.dict ed) →
    (ed.map Prod.fst).Nodup →
    (((processReceiptExtraction st b r bytes env jitter noFaults).2 = 0) ↔
      isStrVal (dictGet mdoc "status") "extracted" = true) ∧
    (isStrVal (dictGet mdoc "status") "extracted" = true →
      (∃ inner, dictGet ((getReceipt (processReceiptExtraction st b r bytes env
          jitter noFaults).1 b r).getD []) "extractedData" =
            some (.dict inner) ∧
        dictGet inner "source" = some (.str "cache_hit")) ∧
      (mk.1 = b → mk.2 ≠ "" →
        dictGet ((getReceipt (processReceiptExtraction st b r bytes env jitter
          noFaults).1 b r).getD []) "flag_duplicate" = some (.bool true) ∧
        dictGet ((getReceipt (processReceiptExtraction st b r bytes env jitter
          noFaults).1 b r).getD []) "duplicate_of" = some (.str mk.2)) ∧
      (mk.1 ≠ b →
        dictGet ((getReceipt (processReceiptExtraction st b r bytes env jitter
          noFaults).1 b r).getD []) "flag_duplicate" = some (.bool false))) ∧
    (∀ e fl, dictGet (dictSet (extractedToDoc e) "flag_duplicate" (.bool fl))
      "source" = none) := by
  intro st b r bytes env jitter mk mdoc ed hq hed hnd
  refine ⟨?_, ?_, fun e fl => rfl⟩
  · constructor
    · intro hz
      by_contra hs
      have hred : processReceiptExtraction st b r bytes env jitter noFaults =
          freshExtractionPath st b r (sha256Hex bytes) env jitter noFaults := by
        simp only [processReceiptExtraction, noFaults]
        rw [hq]
        dsimp only
        rw [if_neg hs]
      rw [hred, fresh_calls] at hz
      have := extract_calls_pos (batchCategories st b) env jitter
      omega
    · intro hs
      have hred : (processReceiptExtraction st b r bytes env jitter noFaults).2 =
          0 := by
        simp only [processReceiptExtraction, noFaults]
        rw [hq]
        dsimp only
        rw [if_pos hs, hed]
      exact hred
  · intro hs
    by_cases hkb : mk.1 = b
    · have hred : processReceiptExtraction st b r bytes env jitter noFaults =
          (finalizeExtraction st b r
            (dictSet (dictSet ed "source" (.str "cache_hit")) "flag_duplicate"
              (.bool true))
            (sha256Hex bytes) "" true (some mk.2), 0) := by
        simp only [processReceiptExtraction, noFaults]
        rw [hq]
        dsimp only
        rw [if_pos hs, hed]
        dsimp only
        rw [if_pos hkb]
      rw [hred]
      refine ⟨?_, ?_, fun hne => absurd hkb hne⟩
      · rcases mergeDoc_get_dict ((getReceipt st b r).getD [])
          (finalizeUpdate (dictSet (dictSet ed "source" (.str "cache_hit"))
            "flag_duplicate" (.bool true)) (sha256Hex bytes) "" true (some mk.2))
          "extractedData" _
          (finalizeUpdate_nodup _ _ _ _ _)
          (finalizeUpdate_mem_extractedData _ _ _ _ _) with ⟨inner, hin, hprop⟩
        refine ⟨inner, ?_, ?_⟩
        · rw [getReceipt_finalize]
          simpa using hin
        · apply hprop
          · exact nodup_keys_dictSet _ _ _ (nodup_keys_dictSet _ _ _ hnd)
          · rw [dictGet_dictSet_ne _ _ _ _ (by decide)]
            exact dictGet_dictSet_self _ _ _
          · exact fun s2 h => Value.noConfusion h
      · intro _ hr2
        constructor
        · rw [getReceipt_finalize]
          simp only [Option.getD_some]
          exact mergeDoc_get_nondict _ _ "flag_duplicate" (.bool true)
            (finalizeUpdate_nodup _ _ _ _ _) (finalizeUpdate_mem_flag _ _ _ _ _)
            (fun sub h => Value.noConfusion h)
        · rw [getReceipt_finalize]
          simp only [Option.getD_some]
          exact mergeDoc_get_nondict _ _ "duplicate_of" (.str mk.2)
            (finalizeUpdate_nodup _ _ _ _ _)
            (finalizeUpdate_mem_dupOf _ _ _ _ mk.2 hr2)
            (fun sub h => Value.noConfusion h)
    · have hred : processReceiptExtraction st b r bytes env jitter noFaults =
          (finalizeExtraction st b r (dictSet ed "source" (.str "cache_hit"))
            (sha256Hex bytes) "" false none, 0) := by
        simp only [processReceiptExtraction, noFaults]
        rw [hq]
        dsimp only
        rw [if_pos hs, hed]
        dsimp only
        rw [if_neg hkb]
      rw [hred]
      refine ⟨?_, fun hkb2 => absurd hkb2 hkb, fun _ => ?_⟩
      · rcases mergeDoc_get_dict ((getReceipt st b r).getD [])
          (finalizeUpdate (dictSet ed "source" (.str "cache_hit"))
            (sha256Hex bytes) "" false none)
          "extractedData" _
          (finalizeUpdate_nodup _ _ _ _ _)
          (finalizeUpdate_mem_extractedData _ _ _ _ _) with ⟨inner, hin, hprop⟩
        refine ⟨inner, ?_, ?_⟩
        · rw [getReceipt_finalize]
          simpa using hin
        · apply hprop
          · exact nodup_keys_dictSet _ _ _ hnd
          · exact dictGet_dictSet_self _ _ _
          · exact fun s2 h => Value.noConfusion h
      · rw [getReceipt_finalize]
        simp only [Option.getD_some]
        exact mergeDoc_get_nondict _ _ "flag_duplicate" (.bool false)
          (finalizeUpdate_nodup _ _ _ _ _) (finalizeUpdate_mem_flag _ _ _ _ _)
          (fun sub h => Value.noConfusion h)

/-- A store holding a prior extracted receipt of the same image in a
different batch. -/
def reuseWitnessDoc : Doc :=
  [("image_hash_sha256", .str (sha256Hex [1, 2, 3])),
   ("status", .str "extracted"),
   ("extractedData", .dict [("vendor", .str "Acme Corp"),
     ("total", .num ⟨85, 2⟩)])]

def reuseWitnessStore : Store := ⟨[], [(("B0", "R0"), reuseWitnessDoc)]⟩

/-- Witness for C2: the cross-batch reuse makes zero provider calls,
stores the provenance marker, and sets no duplicate flag. -/
theorem idempotency_reuse_witness :
    (processReceiptExtraction reuseWitnessStore "B1" "R1" [1, 2, 3] env0
      jitter0 noFaults).2 = 0 ∧
    (∃ inner, dictGet ((getReceipt (processReceiptExtraction reuseWitnessStore
        "B1" "R1" [1, 2, 3] env0 jitter0 noFaults).1 "B1" "R1").getD [])
        "extractedData" = some (.dict inner) ∧
      dictGet inner "source" = some (.str "cache_hit")) ∧
    dictGet ((getReceipt (processReceiptExtraction reuseWitnessStore "B1" "R1"
      [1, 2, 3] env0 jitter0 noFaults).1 "B1" "R1").getD [])
      "flag_duplicate" = some (.bool false) := by
  have h := idempotency_reuse reuseWitnessStore "B1" "R1" [1, 2, 3] env0
    jitter0 ("B0", "R0") reuseWitnessDoc
    [("vendor", .str "Acme Corp"), ("total", .num ⟨85, 2⟩)]
    (by simp [reuseWitnessStore, reuseWitnessDoc, findByImageHash, List.find?,
      isStrVal, dictGet]) rfl (by decide)
  have hs : isStrVal (dictGet reuseWitnessDoc "status") "extracted" = true := by
    decide
  exact ⟨h.1.mpr hs, (h.2.1 hs).1, (h.2.1 hs).2.2 (by decide)⟩

/- ────────────────────────────────────────────────────────
   Claim C10 — empty fingerprint on the reuse path
   ──────────────────────────────────────────────────────── -/

theorem flatMap_byteToHex_length (bs : List Nat) :
    (bs.flatMap byteToHex).length = 2 * bs.length := by
  induction bs with
  | nil => rfl
  | cons b rest ih => simp [byteToHex, ih]; omega

theorem md5Bytes_length (msg : List Nat) : (md5Bytes msg).length = 16 := by
  unfold md5Bytes
  set q := (chunksOf 64 (md5Pad msg)).foldl md5Chunk
    (1732584193, 4023233417, 2562383102, 271733878) with hq
  obtain ⟨a, b, c, d⟩ := q
  simp [wordToLEBytes]

theorem computeReceiptHash_ne_empty (dd : Doc) : computeReceiptHash dd ≠ "" := by
  intro h
  have hlen := congrArg String.length h
  rw [show String.length "" = 0 from rfl] at hlen
  unfold computeReceiptHash md5Hex bytesToHex at hlen
  rw [show ∀ cs : List Char, (String.mk cs).length = cs.length
    from fun cs => rfl] at hlen
  rw [flatMap_byteToHex_length, md5Bytes_length] at hlen
  omega

/-- C10: on the cache-reuse path finalization receives no fingerprint,
so the reusing receipt's stored `receipt_hash` is the empty string
whenever the copied `extractedData` carries no `receipt_hash` key; and
since every semantic fingerprint is a 32-character MD5 hex digest (in
particular non-empty), such a receipt can never satisfy the equality
filter of a later intra-batch fingerprint dedup query. -/
theorem cache_reuse_empty_fingerprint :
    (∀ dd : Doc, computeReceiptHash dd ≠ "") ∧
    (∀ doc2 (dd : Doc), dictGet doc2 "receipt_hash" = some (.str "") →
      isStrVal (dictGet doc2 "receipt_hash") (computeReceiptHash dd) = false) ∧
    (∀ st b r bytes env jitter mk mdoc ed,
      findByImageHash st (sha256Hex bytes) = some (mk, mdoc) →
      isStrVal (dictGet mdoc "status") "extracted" = true →
      dictGet mdoc "extractedData" = some (.dict ed) →
      dictGet ed "receipt_hash" = none →
      dictGet ((getReceipt (processReceiptExtraction st b r bytes env jitter
        noFaults).1 b r).getD []) "receipt_hash" = some (.str "")) := by
  refine ⟨computeReceiptHash_ne_empty, ?_, ?_⟩
  · intro doc2 dd h
    rw [h]
    simp only [isStrVal, decide_eq_false_iff_not]
    exact fun hc => computeReceiptHash_ne_empty dd hc.symm
  · intro st b r bytes env jitter mk mdoc ed hq hs hed hrh
    by_cases hkb : mk.1 = b
    · have hred : processReceiptExtraction st b r bytes env jitter noFaults =
          (finalizeExtraction st b r
            (dictSet (dictSet ed "source" (.str "cache_hit")) "flag_duplicate"
              (.bool true))
            (sha256Hex bytes) "" true (some mk.2), 0) := by
        simp only [processReceiptExtraction, noFaults]
        rw [hq]
        dsimp only
        rw [if_pos hs, hed]
        dsimp only
        rw [if_pos hkb]
      rw [hred, getReceipt_finalize]
      simp only [Option.getD_some]
      have hmem := finalizeUpdate_mem_rhash
        (dictSet (dictSet ed "source" (.str "cache_hit")) "flag_duplicate"
          (.bool true)) (sha256Hex bytes) "" true (some mk.2)
      have hval : (if ("" : String) ≠ "" then Value.str "" else
          (dictGet (dictSet (dictSet ed "source" (.str "cache_hit"))
            "flag_duplicate" (.bool true)) "receipt_hash").getD (.str "")) =
          Value.str "" := by
        rw [if_neg (by simp), dictGet_dictSet_ne _ _ _ _ (by decide),
          dictGet_dictSet_ne _ _ _ _ (by decide), hrh]
        rfl
      rw [hval] at hmem
      exact mergeDoc_get_nondict _ _ "receipt_hash" (.str "")
        (finalizeUpdate_nodup _ _ _ _ _) hmem (fun sub h => Value.noConfusion h)
    · have hred : processReceiptExtraction st b r bytes env jitter noFaults =
          (finalizeExtraction st b r (dictSet ed "source" (.str "cache_hit"))
            (sha256Hex bytes) "" false none, 0) := by
        simp only [processReceiptExtraction, noFaults]
        rw [hq]
        dsimp only
        rw [if_pos hs, hed]
        dsimp only
        rw [if_neg hkb]
      rw [hred, getReceipt_finalize]
      simp only [Option.getD_some]
      have hmem := finalizeUpdate_mem_rhash
        (dictSet ed "source" (.str "cache_hit")) (sha256Hex bytes) "" false none
      have hval : (if ("" : String) ≠ "" then Value.str "" else
          (dictGet (dictSet ed "source" (.str "cache_hit"))
            "receipt_hash").getD (.str "")) = Value.str "" := by
        rw [if_neg (by simp), dictGet_dictSet_ne _ _ _ _ (by decide), hrh]
        rfl
      rw [hval] at hmem
      exact mergeDoc_get_nondict _ _ "receipt_hash" (.str "")
        (finalizeUpdate_nodup _ _ _ _ _) hmem (fun sub h => Value.noConfusion h)

/-- Witness for C10 at the concrete reuse scenario. -/
theorem cache_reuse_empty_fingerprint_witness :
    dictGet ((getReceipt (processReceiptExtraction reuseWitnessStore "B1" "R1"
      [1, 2, 3] env0 jitter0 noFaults).1 "B1" "R1").getD [])
      "receipt_hash" = some (.str "") ∧
    isStrVal (some (.str "")) (computeReceiptHash reuseWitnessDoc) = false :=
  ⟨cache_reuse_empty_fingerprint.2.2 reuseWitnessStore "B1" "R1" [1, 2, 3]
      env0 jitter0 ("B0", "R0") reuseWitnessDoc
      [("vendor", .str "Acme Corp"), ("total", .num ⟨85, 2⟩)]
      (by simp [reuseWitnessStore, reuseWitnessDoc, findByImageHash, List.find?,
        isStrVal, dictGet]) (by decide) rfl rfl,
   cache_reuse_empty_fingerprint.2.1
      [("receipt_hash", .str "")] reuseWitnessDoc rfl⟩

/- ────────────────────────────────────────────────────────
   Claim C3 — retry, backoff and fallback policy
   ──────────────────────────────────────────────────────── -/

/-- C3: `extract_receipt_data` fails terminally only after both
configured models are exhausted, with a message carrying the last
underlying error; each model is attempted at least once and at most 3
times; a non-transient-classified error abandons the model immediately
with no sleep; two transient-classified errors drive the model to its
3-attempt bound with exponentially increasing backoff plus jitter
(`2^1 + j`, then `2^2 + j`); and the fallback model starts right after
the first, adding no sleep of its own between models. -/
theorem extract_retry_policy :
    ∀ cats env jitter,
    (∀ msg, (extractReceiptData cats env jitter).result = .error msg →
      (tryModel cats env jitter 0).success = none ∧
      (tryModel cats env jitter
        (0 + (tryModel cats env jitter 0).calls)).success = none ∧
      msg = "All Gemini models failed: " ++
        (tryModel cats env jitter (0 + (tryModel cats env jitter 0).calls)).lastErr) ∧
    (∀ start, 1 ≤ (tryModel cats env jitter start).calls ∧
      (tryModel cats env jitter start).calls ≤ 3) ∧
    (∀ start m, callResult cats env start = .error m →
      isRetryableErr m = false →
      tryModel cats env jitter start = ⟨none, m, 1, []⟩) ∧
    (∀ start m0 m1, callResult cats env start = .error m0 →
      isRetryableErr m0 = true →
      callResult cats env (start + 1) = .error m1 →
      isRetryableErr m1 = true →
      (tryModel cats env jitter start).calls = 3 ∧
      (tryModel cats env jitter start).sleeps =
        [backoffDelay 1 jitter (start + 1), backoffDelay 2 jitter (start + 2)]) ∧
    (∀ a j i, backoffDelay a j i = (Frac.ofInt ((2 : Int) ^ a)).add (j i)) ∧
    ((tryModel cats env jitter 0).success = none →
      (extractReceiptData cats env jitter).calls =
        (0 + (tryModel cats env jitter 0).calls) +
          (tryModel cats env jitter (0 + (tryModel cats env jitter 0).calls)).calls ∧
      (extractReceiptData cats env jitter).sleeps =
        (tryModel cats env jitter 0).sleeps ++
          (tryModel cats env jitter
            (0 + (tryModel cats env jitter 0).calls)).sleeps) := by
  intro cats env jitter
  refine ⟨?_, ?_, ?_, ?_, fun a j i => rfl, ?_⟩
  · intro msg hmsg
    simp only [extractReceiptData, modelsToTry, extractLoop] at hmsg
    cases h1 : (tryModel cats env jitter 0).success with
    | some f => rw [h1] at hmsg; simp at hmsg
    | none =>
      rw [h1] at hmsg
      cases h2 : (tryModel cats env jitter
          (0 + (tryModel cats env jitter 0).calls)).success with
      | some f => rw [h2] at hmsg; simp at hmsg
      | none =>
        rw [h2] at hmsg
        simp only [Option.getD_some] at hmsg
        exact ⟨rfl, rfl, Except.error.inj hmsg.symm⟩
  · intro start
    unfold tryModel
    cases callResult cats env start with
    | ok r => simp
    | error m0 =>
      by_cases h0 : isRetryableErr m0
      · simp only [if_pos h0]
        cases callResult cats env (start + 1) with
        | ok r => simp
        | error m1 =>
          by_cases h1 : isRetryableErr m1
          · simp only [if_pos h1]
            cases callResult cats env (start + 2) with
            | ok r => simp
            | error m2 => simp
          · simp [h1]
      · simp [h0]
  · intro start m h hm
    unfold tryModel
    rw [h]
    simp [hm]
  · intro start m0 m1 h0 hr0 h1 hr1
    unfold tryModel
    rw [h0]
    simp only [hr0, if_true]
    rw [h1]
    simp only [hr1, if_true]
    cases h2 : callResult cats env (start + 2) with
    | ok r => exact ⟨rfl, rfl⟩
    | error m2 => exact ⟨rfl, rfl⟩
  · intro h1
    simp only [extractReceiptData, modelsToTry, extractLoop]
    rw [h1]
    cases h2 : (tryModel cats env jitter
        (0 + (tryModel cats env jitter 0).calls)).success with
    | some f => exact ⟨rfl, rfl⟩
    | none => exact ⟨rfl, rfl⟩

/-- A provider oracle injecting two transient errors, a malformed-JSON
model failure, and a non-transient error for the fallback model. -/
def envRetryDemo : Nat → Outcome := fun i =>
  match i with
  | 0 => .err "429 RESOURCE_EXHAUSTED: please slow down"
  | 1 => .err "503 Service Unavailable"
  | 2 => .ok "I am not JSON at all"
  | 3 => .err "ValueError: something else entirely"
  | _ => .ok "\x7b\x7d"

/-- Witness for C3: the first model retries twice with backoff `2 + j`,
`4 + j` and is abandoned at the attempt bound; the fallback model's
first error is non-transient, so it is abandoned at once, sleepless. -/
theorem extract_retry_policy_witness :
    ((tryModel none envRetryDemo jitter0 0).calls = 3 ∧
      (tryModel none envRetryDemo jitter0 0).sleeps =
        [backoffDelay 1 jitter0 1, backoffDelay 2 jitter0 2]) ∧
    tryModel none envRetryDemo jitter0 3 =
      ⟨none, "ValueError: something else entirely", 1, []⟩ :=
  ⟨(extract_retry_policy none envRetryDemo jitter0).2.2.2.1 0
      "429 RESOURCE_EXHAUSTED: please slow down" "503 Service Unavailable"
      rfl (by decide) rfl (by decide),
   (extract_retry_policy none envRetryDemo jitter0).2.2.1 3
      "ValueError: something else entirely" rfl (by decide)⟩

/- ────────────────────────────────────────────────────────
   Claim C9 — category-list noninterference
   ──────────────────────────────────────────────────────── -/

/-- C9: the sanitization-and-normalization of a model response is
identical for any two caller-supplied category lists — the list feeds
only the prompt construction, never the parsing — and the
missing-category fallback is the fixed `"Miscellaneous"` regardless of
the supplied list. -/
theorem category_noninterference :
    (∀ c1 c2 raw, processResponse c1 raw = processResponse c2 raw) ∧
    (∀ cats raw d rres, jsonLoads (sanitizeResponse raw) = some (.dict d) →
      dictGet d "category" = none →
      processResponse cats raw = .ok rres →
      rres.category = "Miscellaneous") := by
  constructor
  · intro c1 c2 raw
    rfl
  · intro cats raw d rres hj hc hr
    unfold processResponse at hr
    rw [hj] at hr
    dsimp only at hr
    cases hconf : pyIntVal ((dictGet d "confidence_score").getD (.int 0)) with
    | none => rw [hconf] at hr; cases hr
    | some conf =>
      rw [hconf] at hr
      injection hr with h2
      rw [← h2]
      simp [hc, pyStr]

/-- A response whose JSON object has no `category` key. -/
def rawNoCat : String := "\x7b\"total\": 5\x7d"

/-- Witness for C9 at a concrete response and two category lists. -/
theorem category_noninterference_witness :
    processResponse (some (.list [.str "Hardware", .str "Garden"])) rawNoCat =
      processResponse none rawNoCat ∧
    (⟨"", "", Frac.ofInt 5, Frac.zero, "Miscellaneous", "", 0⟩ :
        ExtractedFields).category = "Miscellaneous" :=
  ⟨category_noninterference.1 _ _ rawNoCat,
   category_noninterference.2 none rawNoCat [("total", .int 5)]
     ⟨"", "", Frac.ofInt 5, Frac.zero, "Miscellaneous", "", 0⟩ rfl rfl rfl⟩

end LedgerLens
